import Mathlib

/-
Verification development for the toolplex client's two-tier process-supervision
and request-routing system.  Each definition is a shallow embedding of one
function of the TypeScript source; the file/line references in the doc comments
point into the repository sources.
-/

namespace Toolplex

/- ================================================================
   Part 1: Process-Manager Client
   (class StdioServerManagerClient, src/unnamed/part_003 lines 4-118)

   The client owns a pending-handler table `messageHandlers : Map<number, cb>`.
   `sendRequest` (lines 76-108) picks `id = Date.now()`, stores a resolver
   under that id (`Map.set`, which OVERWRITES any entry with the same key),
   writes the framed request, and schedules a timeout that fires after 60 s:
   `if (this.messageHandlers.has(id)) { delete(id); reject(timed out) }`.
   A stdout data event (lines 45-64) parses a response line, looks up the
   handler by `message.id`, calls it (resolve on `result`, reject on
   `error`/`__error__`) and deletes the entry.  The child-process `exit`
   listener (lines 66-72) rejects every handler still in the table with a
   "Subprocess exited" error and clears the table.

   We model the event loop as a list of atomic events folded over the client
   state.  Promise settlements are recorded in a ghost log `settles`; removals
   of pending-table entries in a ghost log `removals`.
   ================================================================ -/

/-- Outcome with which a pending promise was settled.  The constructors
correspond to the reject/resolve sites of part_003:
`resolved` = `resolve(frame.result)` (line 88);
`rejectedError` = `reject(new Error(msg))` for an error frame (line 86);
`rejectedTimeout` = `reject(new Error("Request timed out: " + method))` (line 104);
`rejectedExit` = rejection with message "Subprocess exited" via the exit sweep
(lines 66-72);
`rejectedNotStarted` = `reject(Error("Server process not started"))` (line 80). -/
inductive SettleOutcome where
  | resolved
  | rejectedError
  | rejectedTimeout
  | rejectedExit
  | rejectedNotStarted
  deriving DecidableEq, Repr

/-- One settlement of one request's promise: request index, the wire id the
settlement was correlated through, and how it settled. -/
structure Settle where
  req : Nat
  id : Nat
  outcome : SettleOutcome
  deriving DecidableEq, Repr

/-- Events of the client's event loop.
`send k t` : the k-th `sendRequest` call executes with `Date.now() = t`
(so the wire id is `t`).
`response t isErr` : a complete response line with id `t` is parsed from the
child's stdout (`isErr` = the frame carries an `error` field).
`timeoutFire k t` : the 60 s timer scheduled by the k-th `sendRequest`
(whose id was `t`) fires.
`procExit` : the child process's `exit` event fires. -/
inductive ClientEvent where
  | send (k t : Nat)
  | response (t : Nat) (isErr : Bool)
  | timeoutFire (k t : Nat)
  | procExit
  deriving DecidableEq, Repr

/-- Lookup in the pending-handler table (JS `Map.get`, first match): the
table maps a wire id to the index of the request whose resolver is stored
under it. -/
def mapGet (m : List (Nat × Nat)) (t : Nat) : Option Nat :=
  match m with
  | [] => none
  | (a, b) :: rest => if a = t then some b else mapGet rest t

/-- JS `Map.delete`. -/
def mapDelete (m : List (Nat × Nat)) (t : Nat) : List (Nat × Nat) :=
  match m with
  | [] => []
  | (a, b) :: rest => if a = t then mapDelete rest t else (a, b) :: mapDelete rest t

/-- JS `Map.set`: overwrites any existing entry with the same key. -/
def mapSet (m : List (Nat × Nat)) (t k : Nat) : List (Nat × Nat) :=
  (t, k) :: mapDelete m t

/-- State of one StdioServerManagerClient: the pending-handler table, whether
the child process handle is non-null (`serverProcess`), and the two ghost logs
(settlements of promises, removals of table entries by wire id). -/
structure ClientState where
  handlers : List (Nat × Nat)
  alive : Bool
  settles : List Settle
  removals : List Nat
  deriving DecidableEq, Repr

def ClientState.initial : ClientState :=
  { handlers := [], alive := true, settles := [], removals := [] }

/-- One atomic event-loop turn of StdioServerManagerClient
(part_003: `sendRequest` lines 76-108, stdout handler lines 45-64,
exit listener lines 66-72). -/
def clientStep (s : ClientState) : ClientEvent → ClientState
  | .send k t =>
      if s.alive then
        { s with handlers := mapSet s.handlers t k }
      else
        { s with settles := s.settles ++ [⟨k, t, .rejectedNotStarted⟩] }
  | .response t isErr =>
      match mapGet s.handlers t with
      | some k =>
          { s with
              handlers := mapDelete s.handlers t,
              settles := s.settles ++
                [⟨k, t, if isErr then .rejectedError else .resolved⟩],
              removals := s.removals ++ [t] }
      | none => s
  | .timeoutFire k t =>
      if (mapGet s.handlers t).isSome then
        { s with
            handlers := mapDelete s.handlers t,
            settles := s.settles ++ [⟨k, t, .rejectedTimeout⟩],
            removals := s.removals ++ [t] }
      else s
  | .procExit =>
      if s.alive then
        { s with
            handlers := [],
            alive := false,
            settles := s.settles ++
              s.handlers.map (fun p => ⟨p.2, p.1, .rejectedExit⟩),
            removals := s.removals ++ s.handlers.map (fun p => p.1) }
      else s

/-- Run a whole event trace from the just-started client. -/
def clientRun (evs : List ClientEvent) : ClientState :=
  evs.foldl clientStep ClientState.initial

/-- How many times the k-th request's promise was settled in the trace. -/
def settleCount (k : Nat) (s : ClientState) : Nat :=
  (s.settles.filter (fun e => e.req == k)).length

/-- How many times a pending-table entry with wire id t was removed. -/
def removalCount (t : Nat) (s : ClientState) : Nat :=
  (s.removals.filter (fun x => x == t)).length

end Toolplex

namespace Toolplex

/- ================================================================
   Part 2: Framed stdio transport
   (class StdioTransport, src/unnamed/part_004 lines 21-104)

   `start()` (lines 44-51) is guarded by `isStarted`; when not yet started it
   sets the flag and attaches the single bound `dataHandler` to stdin.
   `close()` (lines 90-99) removes that listener when started, resets the
   flag, clears `bufferChunks` and drops the `onmessage` callback.
   We track the number of attached data-handler listener instances, which is
   exactly the number of times each inbound chunk would be processed.
   ================================================================ -/

structure StdioTransport where
  isStarted : Bool
  dataHandlers : Nat
  bufferChunks : List String
  hasOnMessage : Bool
  deriving DecidableEq, Repr

def StdioTransport.initial : StdioTransport :=
  { isStarted := false, dataHandlers := 0, bufferChunks := [], hasOnMessage := false }

/-- part_004 lines 44-51. -/
def StdioTransport.start (s : StdioTransport) : StdioTransport :=
  if s.isStarted then s
  else { s with isStarted := true, dataHandlers := s.dataHandlers + 1 }

/-- part_004 lines 90-99 (`rl.close()` is not observable here). -/
def StdioTransport.close (s : StdioTransport) : StdioTransport :=
  let s1 :=
    if s.isStarted then
      { s with dataHandlers := s.dataHandlers - 1, isStarted := false }
    else s
  { s1 with bufferChunks := [], hasOnMessage := false }

/-- part_004 lines 101-103. -/
def StdioTransport.setOnMessage (s : StdioTransport) : StdioTransport :=
  { s with hasOnMessage := true }

inductive TransportOp where
  | start
  | close
  | setOnMessage
  deriving DecidableEq, Repr

def transportApply (s : StdioTransport) : TransportOp → StdioTransport
  | .start => s.start
  | .close => s.close
  | .setOnMessage => s.setOnMessage

/-- Run an arbitrary sequence of public operations from a fresh transport. -/
def transportRun (ops : List TransportOp) : StdioTransport :=
  ops.foldl transportApply StdioTransport.initial

/-- The handler-count invariant: exactly one stdin data listener is attached
while the transport is started, none otherwise. -/
def handlerInv (s : StdioTransport) : Prop :=
  s.dataHandlers = if s.isStarted then 1 else 0

end Toolplex

namespace Toolplex

/- ================================================================
   Part 3: persisted configuration store, read side
   (ServerManager.loadConfig, src/src/server-manager/serverManager.ts
   lines 141-182)

   `loadConfig` reads the config file, `JSON.parse`s it, and validates:
   a parse result with `typeof !== "object" || === null` yields `{}`;
   otherwise every entry whose value has `typeof === "object" && !== null`
   is kept and the rest are skipped.  If reading or parsing THROWS, the
   catch block checks `fs.access`; when the file exists it COPIES it to
   `configPath + ".backup." + Date.now()` (fs.copyFile, line 174 - the
   original file is left in place) and returns `{}`.  `loadConfig` itself
   never throws.

   JSON.parse is an external library; we take the parse function as a
   parameter mapping the raw text to `none` (parse threw) or a JSON value.
   ================================================================ -/

/-- JSON values as produced by JSON.parse. -/
inductive JValue where
  | jnull
  | jbool (b : Bool)
  | jnum (n : Int)
  | jstr (s : String)
  | jarr (xs : List JValue)
  | jobj (fields : List (String × JValue))

/-- JS test `typeof v === "object" && v !== null`: true exactly for objects
and arrays (note `typeof [] === "object"` and `typeof null === "object"`,
with null excluded by the explicit null check). -/
def JValue.isObjectLike : JValue → Bool
  | .jarr _ => true
  | .jobj _ => true
  | _ => false

/-- JS `Object.entries` restricted to the values `loadConfig` can reach it
with (objects and arrays; arrays enumerate with string indices). -/
def jsEntries : JValue → List (String × JValue)
  | .jobj fields => fields
  | .jarr xs => xs.enum.map (fun p => (toString p.1, p.2))
  | _ => []

/-- On-disk state around the config path: the contents of the config file, if
it exists, and the backup files created so far (name, contents). -/
structure ConfigDisk where
  file : Option String
  backups : List (String × String)

/-- ServerManager.loadConfig (serverManager.ts lines 141-182).  `parse`
models JSON.parse (`none` = it threw); `now` models `Date.now()` at the time
the backup name is formed. -/
def ServerManager.loadConfig (parse : String → Option JValue) (configPath : String)
    (now : Nat) (disk : ConfigDisk) : List (String × JValue) × ConfigDisk :=
  match disk.file with
  | none => ([], disk)
  | some data =>
    match parse data with
    | some allConfig =>
        if allConfig.isObjectLike then
          ((jsEntries allConfig).filter (fun p => p.2.isObjectLike), disk)
        else
          ([], disk)
    | none =>
        ([], { disk with
                 backups := disk.backups ++
                   [(configPath ++ (".backup.") ++ toString now, data)] })

end Toolplex

namespace Toolplex

/- ================================================================
   Part 4: Tool-Server Supervisor
   (class ServerManager, src/src/server-manager/serverManager.ts; the
   canonical in-memory-mirror variant, lines 116-789)

   State per ServerManager instance: `sessions : Map<string, Client>`,
   `tools : Map<string, Tool[]>`, `serverNames : Map<string, string>`,
   the in-memory config mirror `config : Record<string, ServerConfig>`,
   and the on-disk document.  We add a ghost log `closed` recording every
   id for which `client.transport.close()` was invoked.
   ================================================================ -/

/-- Association-list lookup with JS-object/Map get semantics. -/
def alGet {α : Type} (m : List (String × α)) (k : String) : Option α :=
  (m.find? (fun p => p.1 == k)).map (fun p => p.2)

/-- Association-list delete. -/
def alErase {α : Type} (m : List (String × α)) (k : String) : List (String × α) :=
  m.filter (fun p => p.1 != k)

/-- Association-list set (overwrite). -/
def alSet {α : Type} (m : List (String × α)) (k : String) (v : α) : List (String × α) :=
  (k, v) :: alErase m k

/-- Shallow merge `{...a, ...b}`: entries of b win over entries of a. -/
def alMergeRight {α : Type} (a b : List (String × α)) : List (String × α) :=
  a.filter (fun p => (alGet b p.1).isNone) ++ b

/-- ServerConfig (src/shared/mcpServerTypes.ts, ServerConfigSchema): transport
is the string "stdio" or "sse" (kept as a string so that the supervisor's
invalid-transport branch stays representable). -/
structure ServerConfig where
  server_name : Option String
  description : Option String
  command : Option String
  args : List String
  env : List (String × String)
  url : Option String
  transport : String
  deriving DecidableEq, Repr

/-- State of one ServerManager.  Tool lists are abstracted to their names,
which is all the supervisor stores and counts. -/
structure ServerManagerState where
  sessions : List String
  tools : List (String × List String)
  serverNames : List (String × String)
  config : List (String × ServerConfig)
  disk : List (String × ServerConfig)
  closed : List String
  deriving DecidableEq, Repr

/-- ServerManager.removeServer (serverManager.ts lines 711-724): closes the
live transport if a session exists, then deletes the session, the cached tool
list and the display name. -/
def ServerManager.removeServer (st : ServerManagerState) (serverId : String) :
    ServerManagerState :=
  { st with
      sessions := st.sessions.filter (fun s => s != serverId),
      tools := alErase st.tools serverId,
      serverNames := alErase st.serverNames serverId,
      closed := if st.sessions.contains serverId then st.closed ++ [serverId]
                else st.closed }

/-- Behaviour of the two raced handshake steps inside
connectWithHandshakeTimeout: the connect either completes, hangs past the
timeout, or fails; after a successful connect, listTools either returns the
tool list or hangs past the timeout. -/
inductive HandshakeBehavior where
  | ok (tools : List String)
  | connectHangs
  | listToolsHangs
  | connectFails (msg : String)
  deriving DecidableEq, Repr

/-- ServerManager.connectWithHandshakeTimeout (serverManager.ts lines
312-371): races `client.connect` and then `client.listTools` each against an
`ms` timeout; a timeout rejects with the messages built at lines 343 and 357. -/
def ServerManager.connectWithHandshakeTimeout (ms : Nat) (hs : HandshakeBehavior) :
    Except String (List String) :=
  match hs with
  | .ok tools => .ok tools
  | .connectHangs => .error (("connect() timed out in ") ++ toString ms ++ (" ms"))
  | .listToolsHangs => .error (("listTools() timed out in ") ++ toString ms ++ (" ms"))
  | .connectFails msg => .error msg

/-- Transport construction of performInstall (serverManager.ts lines
420-510): SSE requires a url, stdio requires a command, anything else is an
invalid transport type.  These errors are thrown before the try block. -/
def mkTransportCheck (config : ServerConfig) : Except String Unit :=
  if config.transport == ("sse") then
    if config.url.isNone then .error ("URL is required for SSE transport") else .ok ()
  else if config.transport == ("stdio") then
    if config.command.isNone then .error ("Command is required for stdio transport")
    else .ok ()
  else .error (("Invalid transport type: ") ++ config.transport)

/-- Error enrichment of performInstall's catch block (serverManager.ts lines
563-575): when stderr output was captured, it is appended to the message. -/
def enhanceError (base : String) (stderrBuffer : List String) : String :=
  if stderrBuffer.isEmpty then base
  else base ++ ("\n\nServer stderr output:\n") ++ String.intercalate ("\n") stderrBuffer

/-- Result of one (attempted) installation: the supervisor state afterwards
and the resolution of the install promise. -/
structure InstallOutcome where
  state : ServerManagerState
  result : Except String Unit

/-- ServerManager.performInstall (serverManager.ts lines 409-582).
If a session already exists the server is removed first (lines 415-418).
Transport construction may throw (lines 420-510).  The handshake result
(`hs`) drives the try block: on success the session, tool list and display
name are recorded, the config entry
`{...config, server_name, description}` is upserted on disk via saveConfig
(line 539) and mirrored in memory (line 541); on failure the three maps are
cleaned, the transport is closed (lines 546-561), and the error - enriched
with captured stderr - propagates (line 577). -/
def ServerManager.performInstall (st : ServerManagerState)
    (serverId serverName description : String) (config : ServerConfig)
    (hs : HandshakeBehavior) (stderrBuffer : List String) : InstallOutcome :=
  let st1 := if st.sessions.contains serverId then ServerManager.removeServer st serverId
             else st
  match mkTransportCheck config with
  | .error e => { state := st1, result := .error e }
  | .ok _ =>
    match ServerManager.connectWithHandshakeTimeout 60000 hs with
    | .ok tools =>
        let entry := { config with
                         server_name := some serverName,
                         description := some description }
        { state := { st1 with
                       sessions := serverId :: st1.sessions.filter (fun s => s != serverId),
                       tools := alSet st1.tools serverId tools,
                       serverNames := alSet st1.serverNames serverId serverName,
                       disk := alMergeRight st1.disk [(serverId, entry)],
                       config := alSet st1.config serverId entry },
          result := .ok () }
    | .error err =>
        { state := { st1 with
                       sessions := st1.sessions.filter (fun s => s != serverId),
                       tools := alErase st1.tools serverId,
                       serverNames := alErase st1.serverNames serverId,
                       closed := st1.closed ++ [serverId] },
          result := .error (enhanceError err stderrBuffer) }

/-- ServerManager.install (serverManager.ts lines 373-407) for a caller that
finds no installation of this id already in flight: it creates the
performInstall promise, stores it in `installationPromises`, awaits it,
relays its outcome unchanged, and deletes the table entry in the finally
block.  (The single-flight join path for callers that do find an in-flight
installation is modelled separately by `installStep` below.) -/
def ServerManager.install (st : ServerManagerState)
    (serverId serverName description : String) (config : ServerConfig)
    (hs : HandshakeBehavior) (stderrBuffer : List String) : InstallOutcome :=
  ServerManager.performInstall st serverId serverName description config hs stderrBuffer

/-- ServerManager.getServerConfig (serverManager.ts lines 763-769): reads the
in-memory mirror and throws when the id has no entry. -/
def ServerManager.getServerConfig (st : ServerManagerState) (serverId : String) :
    Except String ServerConfig :=
  match alGet st.config serverId with
  | none => .error (("No config found for server ") ++ serverId)
  | some c => .ok c

structure ServerListing where
  server_id : String
  server_name : String
  tool_count : Nat
  description : String
  deriving DecidableEq, Repr

/-- ServerManager.listServers (serverManager.ts lines 726-740): one listing
per in-memory config entry, with the live tool count when connected. -/
def ServerManager.listServers (st : ServerManagerState) : List ServerListing :=
  st.config.map (fun p =>
    { server_id := p.1,
      server_name := p.2.server_name.getD p.1,
      tool_count := ((alGet st.tools p.1).getD []).length,
      description := p.2.description.getD ("") })

/-- Behaviour of the raced `client.callTool` inside ServerManager.callTool:
it returns a result, hangs past the watchdog, or fails. -/
inductive CallBehavior where
  | ok (content : String)
  | hang
  | fail (msg : String)
  deriving DecidableEq, Repr

/-- Which branch the entry of ServerManager.callTool (serverManager.ts lines
599-605) takes for a given state: a live session is used directly; otherwise
a persisted config triggers an implicit install; otherwise the call throws
"No config found". -/
inductive CallPath where
  | directCall
  | lazyInstall
  | noConfigError
  deriving DecidableEq, Repr

def ServerManager.callToolPath (st : ServerManagerState) (serverId : String) : CallPath :=
  if st.sessions.contains serverId then .directCall
  else if (alGet st.config serverId).isSome then .lazyInstall
  else .noConfigError

/-- ServerManager.callTool for an id with a live session (serverManager.ts
lines 607-651): the transport call is raced against the watchdog timer.  When
the watchdog fires it removes the server (line 619) and rejects with
"Tool call timed out after {timeout}ms" (line 620); on any other failure the
server is likewise removed (lines 642-647) before the error is rethrown; on
success the timer is cleared and the content returned. -/
def ServerManager.callToolConnected (st : ServerManagerState) (serverId : String)
    (timeout : Nat) (beh : CallBehavior) : ServerManagerState × Except String String :=
  match beh with
  | .ok content => (st, .ok content)
  | .hang =>
      (ServerManager.removeServer st serverId,
       .error (("Tool call timed out after ") ++ toString timeout ++ ("ms")))
  | .fail msg => (ServerManager.removeServer st serverId, .error msg)

end Toolplex

namespace Toolplex

/- ================================================================
   Part 5: single-flight installation table
   (ServerManager.install, serverManager.ts lines 373-407)

   `install` checks `installationPromises.get(serverId)`; when a promise is
   in flight the caller awaits it and returns (observing its outcome); when
   none is, it invokes performInstall, stores the promise, awaits it and
   deletes it in the finally block.  The check and the set happen in the
   same synchronous segment of the event loop (no await between lines 383
   and 399 other than the synchronous prefix of performInstall), so each
   arrival is one atomic step.  We model arrivals of callers and completion
   of the in-flight installation as events over the promise table for one
   fixed server id, with ghost logs of the performInstall invocations
   (`started`) and of which promise each caller awaits (`joined`).
   ================================================================ -/

inductive InstallEvent where
  | arrive (caller : Nat)
  | complete
  deriving DecidableEq, Repr

structure InstallFlightState where
  inflight : Option Nat
  nextPromise : Nat
  started : List Nat
  joined : List (Nat × Nat)
  deriving DecidableEq, Repr

/-- One atomic step: a caller's check of `installationPromises` (and, when
empty, the creation of a new performInstall promise), or the completion of
the in-flight installation (its finally block deletes the table entry). -/
def installStep (s : InstallFlightState) : InstallEvent → InstallFlightState
  | .arrive c =>
      match s.inflight with
      | some p => { s with joined := s.joined ++ [(c, p)] }
      | none =>
          { s with
              inflight := some s.nextPromise,
              nextPromise := s.nextPromise + 1,
              started := s.started ++ [s.nextPromise],
              joined := s.joined ++ [(c, s.nextPromise)] }
  | .complete => { s with inflight := none }

end Toolplex

namespace Toolplex

/- ================================================================
   Part 6: session registry
   (class Registry, src/src/mcp-server/registry.ts lines 15-167)

   Every slot is null until init; every getter except the bundled-dependency
   accessors throws a slot-specific message while its slot is null;
   `getBundledDependencies` (lines 133-135) returns the stored object, which
   starts as `{}` and is reset to `{}`, and `getBundledDependencyPath`
   (lines 141-145) returns undefined for an unset dependency.  The handles
   held in the slots are opaque here (numbers). -/

structure BundledDependencies where
  node : Option String
  npx : Option String
  python : Option String
  pip : Option String
  uv : Option String
  uvx : Option String
  git : Option String
  deriving DecidableEq, Repr

def BundledDependencies.empty : BundledDependencies :=
  { node := none, npx := none, python := none, pip := none,
    uv := none, uvx := none, git := none }

structure RegistryState where
  clientContext : Option Nat
  toolplexApiService : Option Nat
  serverManagerClients : Option (List (String × Nat))
  telemetryLogger : Option Nat
  promptsCache : Option Nat
  toolDefinitionsCache : Option Nat
  serversCache : Option Nat
  policyEnforcer : Option Nat
  bundledDependencies : BundledDependencies
  deriving DecidableEq, Repr

/-- The registry before `init` is called: every slot null, bundled
dependencies `{}` (registry.ts lines 16-27). -/
def RegistryState.uninitialized : RegistryState :=
  { clientContext := none, toolplexApiService := none,
    serverManagerClients := none, telemetryLogger := none,
    promptsCache := none, toolDefinitionsCache := none,
    serversCache := none, policyEnforcer := none,
    bundledDependencies := BundledDependencies.empty }

/-- registry.ts lines 53-58. -/
def Registry.getClientContext (r : RegistryState) : Except String Nat :=
  match r.clientContext with
  | none => .error ("ClientContext not initialized in Registry")
  | some c => .ok c

/-- registry.ts lines 60-65. -/
def Registry.getToolplexApiService (r : RegistryState) : Except String Nat :=
  match r.toolplexApiService with
  | none => .error ("ToolplexApiService not initialized in Registry")
  | some c => .ok c

/-- registry.ts lines 67-75. -/
def Registry.getServerManagerClients (r : RegistryState) :
    Except String (List (String × Nat)) :=
  match r.serverManagerClients with
  | none => .error ("ServerManagerClients not initialized in Registry")
  | some c => .ok c

/-- registry.ts lines 86-91. -/
def Registry.getTelemetryLogger (r : RegistryState) : Except String Nat :=
  match r.telemetryLogger with
  | none => .error ("TelemetryLogger not initialized in Registry")
  | some c => .ok c

/-- registry.ts lines 93-98. -/
def Registry.getPromptsCache (r : RegistryState) : Except String Nat :=
  match r.promptsCache with
  | none => .error ("PromptsCache not initialized in Registry")
  | some c => .ok c

/-- registry.ts lines 100-105. -/
def Registry.getToolDefinitionsCache (r : RegistryState) : Except String Nat :=
  match r.toolDefinitionsCache with
  | none => .error ("ToolDefinitionsCache not initialized in Registry")
  | some c => .ok c

/-- registry.ts lines 107-112. -/
def Registry.getServersCache (r : RegistryState) : Except String Nat :=
  match r.serversCache with
  | none => .error ("ServersCache not initialized in Registry")
  | some c => .ok c

/-- registry.ts lines 114-119. -/
def Registry.getPolicyEnforcer (r : RegistryState) : Except String Nat :=
  match r.policyEnforcer with
  | none => .error ("PolicyEnforcer not initialized in Registry")
  | some c => .ok c

/-- registry.ts lines 133-135: returns the stored object directly; its doc
comment reads "Returns empty object if not set".  This accessor cannot fail. -/
def Registry.getBundledDependencies (r : RegistryState) : BundledDependencies :=
  r.bundledDependencies

inductive DependencyName where
  | node
  | python
  | git
  | uvx
  | npx
  deriving DecidableEq, Repr

/-- registry.ts lines 141-145: undefined when the dependency is unavailable. -/
def Registry.getBundledDependencyPath (r : RegistryState) :
    DependencyName → Option String
  | .node => r.bundledDependencies.node
  | .python => r.bundledDependencies.python
  | .git => r.bundledDependencies.git
  | .uvx => r.bundledDependencies.uvx
  | .npx => r.bundledDependencies.npx

/-- registry.ts lines 29-51: init throws when already initialized, otherwise
fills every slot (bundled dependencies are managed separately and untouched). -/
def Registry.init (r : RegistryState) (clientContext : Nat) :
    Except String RegistryState :=
  if r.clientContext.isSome || r.toolplexApiService.isSome ||
      r.serverManagerClients.isSome then
    .error ("Registry already initialized")
  else
    .ok { clientContext := some clientContext,
          toolplexApiService := some 0,
          serverManagerClients := some [],
          telemetryLogger := some 0,
          promptsCache := some 0,
          toolDefinitionsCache := some 0,
          serversCache := some 0,
          policyEnforcer := some 0,
          bundledDependencies := r.bundledDependencies }

/-- registry.ts lines 147-166: every slot back to null, bundled dependencies
back to `{}`. -/
def Registry.reset (_ : RegistryState) : RegistryState :=
  RegistryState.uninitialized

end Toolplex

namespace Toolplex

/- ================================================================
   Part 7: outer dispatcher fan-out
   (handleListTools with no server_id, src/unnamed/part_016 lines 83-119)

   For each registered server-manager client the handler AWAITS
   `client.sendRequest("list_all_tools", {})`.  A rejected promise throws
   out of the loop into the handler's outer catch, which returns an isError
   reply (modelled as `Except.error`).  A resolved response whose value has
   a truthy `error` field, or which fails the
   `ListAllToolsResultSchema.safeParse`, is skipped with `continue`.
   Otherwise the entries are policy-filtered
   (`policyEnforcer.filterBlockedMcpServers`, a set-membership filter over
   `blocked_mcp_servers` - playbookPolicy.ts lines 195-202) and the
   non-empty tool lists are appended to the merged result.
   ================================================================ -/

/-- A resolved `list_all_tools` response as seen by the handler. -/
inductive ListAllToolsResponse where
  | errorField (msg : String)
  | invalid
  | ok (tools : List (String × List String))
  deriving DecidableEq, Repr

/-- How one `sendRequest("list_all_tools", {})` promise settles. -/
inductive RpcOutcome where
  | rejected (msg : String)
  | resolved (resp : ListAllToolsResponse)
  deriving DecidableEq, Repr

structure ServerToolsEntry where
  server_id : String
  tools : List String
  deriving DecidableEq, Repr

/-- The fan-out loop of handleListTools (part_016 lines 90-119), with the
surrounding try/catch folded in: a rejected await propagates as an error
result for the whole operation. -/
def fanOutLoop (blocked : List String) (clients : List (String × RpcOutcome))
    (acc : List ServerToolsEntry) : Except String (List ServerToolsEntry) :=
  match clients with
  | [] => .ok acc
  | (_, outcome) :: rest =>
    match outcome with
    | .rejected msg => .error msg
    | .resolved resp =>
      match resp with
      | .errorField _ => fanOutLoop blocked rest acc
      | .invalid => fanOutLoop blocked rest acc
      | .ok tools =>
          let filtered := tools.filter (fun p => !(blocked.contains p.1))
          let kept := filtered.filter (fun p => p.2.length > 0)
          fanOutLoop blocked rest (acc ++ kept.map (fun p => ⟨p.1, p.2⟩))

/-- handleListTools with no server_id (part_016 lines 83-148), reduced to the
merged `allServerTools` list (or the error caught by the outer catch). -/
def handleListToolsFanOut (blocked : List String)
    (clients : List (String × RpcOutcome)) : Except String (List ServerToolsEntry) :=
  fanOutLoop blocked clients []

/-- The spec's reading of the fan-out ("tolerates individual failures by
skipping that runtime's contribution, and merges successful results"),
restricted to the per-runtime contributions of the responses that did
resolve with a valid payload. -/
def fanOutMergeSpec (blocked : List String) :
    List (String × RpcOutcome) → List ServerToolsEntry
  | [] => []
  | (_, outcome) :: rest =>
    (match outcome with
     | .resolved (.ok tools) =>
         ((tools.filter (fun p => !(blocked.contains p.1))).filter
             (fun p => p.2.length > 0)).map (fun p => ⟨p.1, p.2⟩)
     | _ => []) ++ fanOutMergeSpec blocked rest

/-- The error string mentions "timed out", i.e. the literal occurs as a
substring. -/
def containsTimedOut (e : String) : Prop :=
  ∃ pre post, e = pre ++ (("timed out") ++ post)

/-- The state reached when K callers run ServerManager.install for one id
while a performInstall promise `p0` for that id is already in the
installationPromises table and does not complete before the arrivals. -/
def installArrivalsRun (K p0 : Nat) : InstallFlightState :=
  ((List.range K).map InstallEvent.arrive).foldl installStep
    { inflight := some p0, nextPromise := p0 + 1, started := [p0], joined := [] }

/-- An event of the client's event loop that belongs to a different request
than the one sent as request k with wire id t: other sends and timer firings
carry a different request index AND a different wire id (this is what
"request ids are unique while pending" provides); response frames and the
exit event are unconstrained. -/
def EventAvoids (k t : Nat) : ClientEvent → Prop
  | .send j u => j ≠ k ∧ u ≠ t
  | .timeoutFire j u => j ≠ k ∧ u ≠ t
  | .response _ _ => True
  | .procExit => True

/-- The pending-handler table never holds two entries with the same wire id
(a JS Map cannot; the model's mapSet/mapDelete maintain this). -/
def TableNodup (s : ClientState) : Prop :=
  (s.handlers.map Prod.fst).Nodup

/-- Before request k with id t is sent: no pending entry under id t, no
pending entry resolves request k, request k has never been settled, and no
entry of id t was ever removed. -/
def ReqPre (k t : Nat) (s : ClientState) : Prop :=
  mapGet s.handlers t = none ∧
  (∀ u, mapGet s.handlers u ≠ some k) ∧
  (∀ e ∈ s.settles, e.req ≠ k) ∧
  removalCount t s = 0

/-- After request k with id t was sent and before its fate is decided:
request k owns no table entry other than id t, every settlement of k was
correlated to id t, and either the entry is still pending (no settlement,
no removal) or it is gone, k was settled exactly once and the entry was
removed at most once. -/
def ReqMid (k t : Nat) (s : ClientState) : Prop :=
  (∀ u, mapGet s.handlers u = some k → u = t) ∧
  (∀ e ∈ s.settles, e.req = k → e.id = t) ∧
  ((mapGet s.handlers t = some k ∧ settleCount k s = 0 ∧ removalCount t s = 0) ∨
   (mapGet s.handlers t = none ∧ settleCount k s = 1 ∧ removalCount t s ≤ 1))

/-- After request k's 60 s timer has fired: the table entry is gone, request
k was settled exactly once, always correlated to its own id t, and the
entry was removed at most once. -/
def ReqDone (k t : Nat) (s : ClientState) : Prop :=
  (∀ u, mapGet s.handlers u = some k → u = t) ∧
  (∀ e ∈ s.settles, e.req = k → e.id = t) ∧
  mapGet s.handlers t = none ∧ settleCount k s = 1 ∧ removalCount t s ≤ 1

end Toolplex


namespace Toolplex

/- ================================================================
   Helper lemmas (shared)
   ================================================================ -/

theorem contains_filter_ne (l : List String) (a : String) :
    (l.filter (fun s => s != a)).contains a = false := by
  simp

theorem alGet_alErase_self {α : Type} (m : List (String × α)) (k : String) :
    alGet (alErase m k) k = none := by
  simp [alGet, alErase, List.find?_eq_none]

theorem alGet_none_keys {α : Type} (m : List (String × α)) (k : String)
    (h : alGet m k = none) : ∀ p ∈ m, p.1 ≠ k := by
  simp [alGet, List.find?_eq_none] at h
  intro p hp
  exact h p.1 p.2 hp

theorem containsTimedOut_enhance (base : String) (buf : List String)
    (h : containsTimedOut base) : containsTimedOut (enhanceError base buf) := by
  unfold enhanceError
  by_cases hb : buf.isEmpty
  · simpa [hb] using h
  · obtain ⟨pre, post, rfl⟩ := h
    refine ⟨pre, post ++ (("\n\nServer stderr output:\n") ++
      String.intercalate ("\n") buf), ?_⟩
    simp [hb, String.append_assoc]

theorem containsTimedOut_connect60000 :
    containsTimedOut (("connect() timed out in ") ++ toString 60000 ++ (" ms")) := by
  refine ⟨("connect() "), (" in 60000 ms"), ?_⟩
  decide

end Toolplex

namespace Toolplex

/- ================================================================
   Claim theorems
   ================================================================ -/

/-- Claim C1 fails on the code: `sendRequest` draws its request id from
`Date.now()`, so two calls in the same millisecond get the same id; the
second `Map.set` overwrites the first pending handler.  In the trace below,
requests 0 and 1 are both sent at time 100, the child answers id 100 twice,
and both 60 s timers later fire; request 1 is resolved once, but request 0's
promise is never resolved nor rejected (settled zero times, not exactly
once), even though nothing remains pending. -/
theorem sendRequest_id_collision_starves_promise :
    settleCount 0 (clientRun
      [ClientEvent.send 0 100, ClientEvent.send 1 100,
       ClientEvent.response 100 false, ClientEvent.response 100 false,
       ClientEvent.timeoutFire 0 100, ClientEvent.timeoutFire 1 100]) = 0 ∧
    settleCount 1 (clientRun
      [ClientEvent.send 0 100, ClientEvent.send 1 100,
       ClientEvent.response 100 false, ClientEvent.response 100 false,
       ClientEvent.timeoutFire 0 100, ClientEvent.timeoutFire 1 100]) = 1 ∧
    (clientRun
      [ClientEvent.send 0 100, ClientEvent.send 1 100,
       ClientEvent.response 100 false, ClientEvent.response 100 false,
       ClientEvent.timeoutFire 0 100, ClientEvent.timeoutFire 1 100]).handlers = [] := by
  decide

/-- Claim C5: when the child process exits while requests are pending, the
exit sweep (part_003 lines 66-72) rejects every still-pending resolver with
the "Subprocess exited" error and clears the pending-handler table, so no
caller hangs across a crash: afterwards the table is empty, exactly one new
settlement per pending entry was appended, and every pending request was
rejected with the exit error correlated to its own wire id. -/
theorem exit_sweep_rejects_all_pending (s : ClientState) (h : s.alive = true) :
    (clientStep s .procExit).handlers = [] ∧
    (clientStep s .procExit).settles =
      s.settles ++ s.handlers.map (fun p => ⟨p.2, p.1, .rejectedExit⟩) ∧
    ∀ p ∈ s.handlers,
      (⟨p.2, p.1, SettleOutcome.rejectedExit⟩ : Settle) ∈ (clientStep s .procExit).settles := by
  refine ⟨by simp [clientStep, h], by simp [clientStep, h], ?_⟩
  intro p hp
  simp only [clientStep, h, if_true, List.mem_append, List.mem_map]
  exact Or.inr ⟨p, hp, rfl⟩

/-- Witness for exit_sweep_rejects_all_pending: a client with two pending
requests (request 0 under wire id 5, request 1 under wire id 9). -/
theorem exit_sweep_rejects_all_pending_witness :
    (clientStep { handlers := [(5, 0), (9, 1)], alive := true,
                  settles := [], removals := [] } .procExit).handlers = [] ∧
    (clientStep { handlers := [(5, 0), (9, 1)], alive := true,
                  settles := [], removals := [] } .procExit).settles =
      ([] : List Settle) ++
        [(5, 0), (9, 1)].map (fun p => ⟨p.2, p.1, .rejectedExit⟩) ∧
    ∀ p ∈ [((5 : Nat), (0 : Nat)), (9, 1)],
      (⟨p.2, p.1, SettleOutcome.rejectedExit⟩ : Settle) ∈
        (clientStep { handlers := [(5, 0), (9, 1)], alive := true,
                      settles := [], removals := [] } .procExit).settles :=
  exit_sweep_rejects_all_pending
    { handlers := [(5, 0), (9, 1)], alive := true, settles := [], removals := [] } rfl

theorem handlerInv_apply (s : StdioTransport) (op : TransportOp)
    (h : handlerInv s) : handlerInv (transportApply s op) := by
  unfold handlerInv at h ⊢
  cases op with
  | start =>
      by_cases hs : s.isStarted <;>
        simp [transportApply, StdioTransport.start, hs, h] at h ⊢
  | close =>
      by_cases hs : s.isStarted <;>
        simp [transportApply, StdioTransport.close, hs, h] at h ⊢
  | setOnMessage =>
      simpa [transportApply, StdioTransport.setOnMessage] using h

theorem handlerInv_foldl (ops : List TransportOp) (s : StdioTransport)
    (h : handlerInv s) : handlerInv (ops.foldl transportApply s) := by
  induction ops generalizing s with
  | nil => exact h
  | cons op ops ih => exact ih (transportApply s op) (handlerInv_apply s op h)

theorem handlerInv_run (ops : List TransportOp) : handlerInv (transportRun ops) :=
  handlerInv_foldl ops StdioTransport.initial rfl

/-- Claim C10: StdioTransport.start is idempotent - a second start on an
already-started transport is the identity, so it attaches no additional
stdin data handler; after any sequence of public operations, the number of
attached data handlers is 1 when started and 0 otherwise (so each inbound
chunk is processed exactly once while started); and after close removes the
handler and resets the flag, a subsequent start re-attaches exactly one. -/
theorem stdioTransport_start_idempotent_single_handler
    (s : StdioTransport) (ops : List TransportOp) :
    StdioTransport.start (StdioTransport.start s) = StdioTransport.start s ∧
    handlerInv (transportRun ops) ∧
    (StdioTransport.close (transportRun ops)).dataHandlers = 0 ∧
    (StdioTransport.start (StdioTransport.close (transportRun ops))).dataHandlers = 1 := by
  have hrun := handlerInv_run ops
  unfold handlerInv at hrun
  refine ⟨?_, handlerInv_run ops, ?_, ?_⟩
  · by_cases hs : s.isStarted <;> simp [StdioTransport.start, hs]
  · by_cases hs : (transportRun ops).isStarted <;>
      simp [StdioTransport.close, hs, hrun]
  · by_cases hs : (transportRun ops).isStarted <;>
      simp [StdioTransport.close, StdioTransport.start, hs, hrun]

end Toolplex

namespace Toolplex

/-- Claim C6's counterexample: on invalid JSON the catch block of loadConfig
COPIES the corrupt document to the timestamped backup (fs.copyFile,
serverManager.ts line 174) - it does not RENAME it.  Evaluating loadConfig on
a disk whose config file holds unparseable text shows that the call returns
the empty mapping and creates exactly one timestamped backup, but the corrupt
original is still present at the config path afterwards, which contradicts
the claim's "the corrupt document is renamed to file.backup.timestamp". -/
theorem loadConfig_backs_up_by_copy_not_rename :
    ServerManager.loadConfig (fun _ => none) ("server_config.json") 1700000000000
        { file := some ("not-json"), backups := [] } =
      ([], { file := some ("not-json"),
             backups := [(("server_config.json.backup.1700000000000"), ("not-json"))] }) := by
  rfl

/-- Claim C6 as amended: if the persisted config file exists but contains
invalid JSON (the parse throws), the next loadConfig returns an empty
mapping, produces exactly one timestamped backup COPY of the corrupt
document named configPath.backup.timestamp (the original file is left in
place), and does not throw - the embedded function returns normally on
every input of this shape. -/
theorem loadConfig_corrupt_empty_one_backup
    (parse : String → Option JValue) (configPath : String) (now : Nat)
    (disk : ConfigDisk) (data : String)
    (hfile : disk.file = some data) (hbad : parse data = none) :
    ServerManager.loadConfig parse configPath now disk =
      ([], { disk with
               backups := disk.backups ++
                 [(configPath ++ (".backup.") ++ toString now, data)] }) := by
  simp [ServerManager.loadConfig, hfile, hbad]

/-- Witness for loadConfig_corrupt_empty_one_backup at a concrete corrupt
file. -/
theorem loadConfig_corrupt_empty_one_backup_witness :
    ServerManager.loadConfig (fun _ => none) ("cfg.json") 42
        { file := some ("oops"), backups := [] } =
      ([], { ({ file := some ("oops"), backups := [] } : ConfigDisk) with
               backups := ([] : List (String × String)) ++
                 [(("cfg.json") ++ (".backup.") ++ toString 42, ("oops"))] }) :=
  loadConfig_corrupt_empty_one_backup (fun _ => none) ("cfg.json") 42
    { file := some ("oops"), backups := [] } ("oops") rfl rfl

/-- Claim C9's counterexample: a JSON document whose top level is an ARRAY is
not an object in the JSON sense, yet `typeof [] === "object"` holds, so
loadConfig's top-level validation (serverManager.ts line 149) accepts it and
`Object.entries` enumerates it with string indices: parsing the file
"[ {} ]" yields the non-empty mapping with key "0" and no backup, while the
claim demands an empty mapping for every non-object top level. -/
theorem loadConfig_toplevel_array_nonempty :
    ServerManager.loadConfig
        (fun _ => some (JValue.jarr [JValue.jobj []])) ("server_config.json") 0
        { file := some ("[ {} ]"), backups := [] } =
      ([(("0"), JValue.jobj [])],
       { file := some ("[ {} ]"), backups := [] }) := by
  rfl

/-- Claim C9 as amended: when the persisted config file parses successfully,
no backup is created and the disk is untouched; the result is the empty
mapping whenever the top level is not object-like in the JS sense (where
`typeof x === "object" && x !== null` also accepts arrays); and in general
the result keeps exactly the entries whose values are object-like (objects
or arrays) and silently skips the rest - the timestamped backup is created
only when reading or parsing throws. -/
theorem loadConfig_parse_success_no_backup_and_filter
    (parse : String → Option JValue) (configPath : String) (now : Nat)
    (disk : ConfigDisk) (data : String) (v : JValue)
    (hfile : disk.file = some data) (hv : parse data = some v) :
    (ServerManager.loadConfig parse configPath now disk).2 = disk ∧
    (v.isObjectLike = false → (ServerManager.loadConfig parse configPath now disk).1 = []) ∧
    (ServerManager.loadConfig parse configPath now disk).1 =
      (jsEntries v).filter (fun p => p.2.isObjectLike) := by
  cases v <;>
    simp [ServerManager.loadConfig, hfile, hv, JValue.isObjectLike, jsEntries]

/-- Witness for loadConfig_parse_success_no_backup_and_filter at a concrete
object document with one object entry, one array entry, and skipped null,
number and string entries. -/
theorem loadConfig_parse_success_no_backup_and_filter_witness :
    (ServerManager.loadConfig
        (fun _ => some (JValue.jobj
          [(("a"), JValue.jobj []), (("b"), JValue.jnull),
           (("c"), JValue.jnum 3), (("d"), JValue.jarr []),
           (("e"), JValue.jstr ("x"))]))
        ("cfg.json") 7 { file := some ("doc"), backups := [] }).2 =
      { file := some ("doc"), backups := [] } ∧
    ((JValue.jobj
          [(("a"), JValue.jobj []), (("b"), JValue.jnull),
           (("c"), JValue.jnum 3), (("d"), JValue.jarr []),
           (("e"), JValue.jstr ("x"))]).isObjectLike = false →
      (ServerManager.loadConfig
        (fun _ => some (JValue.jobj
          [(("a"), JValue.jobj []), (("b"), JValue.jnull),
           (("c"), JValue.jnum 3), (("d"), JValue.jarr []),
           (("e"), JValue.jstr ("x"))]))
        ("cfg.json") 7 { file := some ("doc"), backups := [] }).1 = []) ∧
    (ServerManager.loadConfig
        (fun _ => some (JValue.jobj
          [(("a"), JValue.jobj []), (("b"), JValue.jnull),
           (("c"), JValue.jnum 3), (("d"), JValue.jarr []),
           (("e"), JValue.jstr ("x"))]))
        ("cfg.json") 7 { file := some ("doc"), backups := [] }).1 =
      (jsEntries (JValue.jobj
          [(("a"), JValue.jobj []), (("b"), JValue.jnull),
           (("c"), JValue.jnum 3), (("d"), JValue.jarr []),
           (("e"), JValue.jstr ("x"))])).filter (fun p => p.2.isObjectLike) :=
  loadConfig_parse_success_no_backup_and_filter
    (fun _ => some (JValue.jobj
      [(("a"), JValue.jobj []), (("b"), JValue.jnull),
       (("c"), JValue.jnum 3), (("d"), JValue.jarr []),
       (("e"), JValue.jstr ("x"))]))
    ("cfg.json") 7 { file := some ("doc"), backups := [] } ("doc") _ rfl rfl

end Toolplex

namespace Toolplex

theorem installStep_arrivals (cs : List Nat) (s : InstallFlightState) (p : Nat)
    (h : s.inflight = some p) :
    (cs.map InstallEvent.arrive).foldl installStep s =
      { s with joined := s.joined ++ cs.map (fun c => (c, p)) } := by
  induction cs generalizing s with
  | nil => simp
  | cons c cs ih =>
      have hstep : installStep s (InstallEvent.arrive c) =
          { s with joined := s.joined ++ [(c, p)] } := by
        simp [installStep, h]
      have hnext : ({ s with joined := s.joined ++ [(c, p)] } :
          InstallFlightState).inflight = some p := h
      simp only [List.map_cons, List.foldl_cons, hstep, ih _ hnext]
      simp

/-- Claim C2: while a performInstall promise p0 for a server id is in flight,
K further ServerManager.install callers for the same id all take the
existing-installation branch (serverManager.ts lines 383-390): no further
performInstall is started (started stays [p0], so exactly one physical
installation - one spawn and one handshake - runs in total), the in-flight
promise stays the one they await, every caller joins p0, and therefore every
caller observes the identical outcome, namely that of p0. -/
theorem install_single_flight_shared_outcome (K p0 : Nat)
    (outcome : Nat → Except String Unit) :
    (installArrivalsRun K p0).started = [p0] ∧
    (installArrivalsRun K p0).inflight = some p0 ∧
    (installArrivalsRun K p0).joined = (List.range K).map (fun c => (c, p0)) ∧
    ∀ pr ∈ (installArrivalsRun K p0).joined, outcome pr.2 = outcome p0 := by
  have h := installStep_arrivals (List.range K)
    { inflight := some p0, nextPromise := p0 + 1, started := [p0], joined := [] }
    p0 rfl
  unfold installArrivalsRun
  rw [h]
  refine ⟨rfl, rfl, by simp, ?_⟩
  intro pr hpr
  simp only [List.nil_append, List.mem_map] at hpr
  obtain ⟨c, _, rfl⟩ := hpr
  rfl

end Toolplex

namespace Toolplex

/-- Claim C3: if ServerManager.install fails because the stdio handshake
never completes within the timeout, the rejection's message contains
"timed out" (even after stderr enrichment), no on-disk config entry is
written and no in-memory state is left for that server id: the config mirror
and the disk document are unchanged, there is no session, a subsequent
getServerConfig reports no config found, listServers does not list the
server at all (in particular not as connected), and the partially-created
transport was closed before the error propagated. -/
theorem install_handshake_timeout_no_state_mutation
    (st : ServerManagerState) (serverId serverName description : String)
    (config : ServerConfig) (stderrBuffer : List String) (r : InstallOutcome)
    (hr : r = ServerManager.install st serverId serverName description config
            .connectHangs stderrBuffer)
    (hsess : st.sessions.contains serverId = false)
    (hcfg : alGet st.config serverId = none)
    (htr : config.transport = ("stdio"))
    (hcmd : config.command.isSome = true) :
    (∃ e, r.result = Except.error e ∧ containsTimedOut e) ∧
    r.state.config = st.config ∧
    r.state.disk = st.disk ∧
    r.state.sessions.contains serverId = false ∧
    ServerManager.getServerConfig r.state serverId =
      Except.error (("No config found for server ") ++ serverId) ∧
    (∀ listing ∈ ServerManager.listServers r.state, listing.server_id ≠ serverId) ∧
    serverId ∈ r.state.closed := by
  obtain ⟨cmd, hc⟩ := Option.isSome_iff_exists.mp hcmd
  have hns : serverId ∉ st.sessions := by simpa using hsess
  have hred : r = { state := { st with
                       sessions := st.sessions.filter (fun s => s != serverId),
                       tools := alErase st.tools serverId,
                       serverNames := alErase st.serverNames serverId,
                       closed := st.closed ++ [serverId] },
                    result := Except.error (enhanceError
                      (("connect() timed out in ") ++ toString 60000 ++ (" ms"))
                      stderrBuffer) } := by
    rw [hr]
    simp [ServerManager.install, ServerManager.performInstall, hns,
      mkTransportCheck, htr, hc, ServerManager.connectWithHandshakeTimeout]
  subst hred
  refine ⟨⟨_, rfl, containsTimedOut_enhance _ _ containsTimedOut_connect60000⟩,
    rfl, rfl, contains_filter_ne _ _, ?_, ?_, ?_⟩
  · simp [ServerManager.getServerConfig, hcfg]
  · intro listing hl
    simp only [ServerManager.listServers, List.mem_map] at hl
    obtain ⟨p, hp, rfl⟩ := hl
    exact alGet_none_keys st.config serverId hcfg p hp
  · simp

/-- Witness for install_handshake_timeout_no_state_mutation: a fresh
supervisor, a stdio config, and a handshake that hangs. -/
theorem install_handshake_timeout_no_state_mutation_witness :
    (∃ e, (ServerManager.install
        { sessions := [], tools := [], serverNames := [], config := [],
          disk := [], closed := [] }
        ("sv_aaaaaaaaaaaa") ("A server") ("desc")
        { server_name := none, description := none, command := some ("npx"),
          args := [], env := [], url := none, transport := ("stdio") }
        .connectHangs []).result = Except.error e ∧ containsTimedOut e) ∧
    (ServerManager.install
        { sessions := [], tools := [], serverNames := [], config := [],
          disk := [], closed := [] }
        ("sv_aaaaaaaaaaaa") ("A server") ("desc")
        { server_name := none, description := none, command := some ("npx"),
          args := [], env := [], url := none, transport := ("stdio") }
        .connectHangs []).state.config =
      ({ sessions := [], tools := [], serverNames := [], config := [],
         disk := [], closed := [] } : ServerManagerState).config ∧
    (ServerManager.install
        { sessions := [], tools := [], serverNames := [], config := [],
          disk := [], closed := [] }
        ("sv_aaaaaaaaaaaa") ("A server") ("desc")
        { server_name := none, description := none, command := some ("npx"),
          args := [], env := [], url := none, transport := ("stdio") }
        .connectHangs []).state.disk =
      ({ sessions := [], tools := [], serverNames := [], config := [],
         disk := [], closed := [] } : ServerManagerState).disk ∧
    (ServerManager.install
        { sessions := [], tools := [], serverNames := [], config := [],
          disk := [], closed := [] }
        ("sv_aaaaaaaaaaaa") ("A server") ("desc")
        { server_name := none, description := none, command := some ("npx"),
          args := [], env := [], url := none, transport := ("stdio") }
        .connectHangs []).state.sessions.contains ("sv_aaaaaaaaaaaa") = false ∧
    ServerManager.getServerConfig (ServerManager.install
        { sessions := [], tools := [], serverNames := [], config := [],
          disk := [], closed := [] }
        ("sv_aaaaaaaaaaaa") ("A server") ("desc")
        { server_name := none, description := none, command := some ("npx"),
          args := [], env := [], url := none, transport := ("stdio") }
        .connectHangs []).state ("sv_aaaaaaaaaaaa") =
      Except.error (("No config found for server ") ++ ("sv_aaaaaaaaaaaa")) ∧
    (∀ listing ∈ ServerManager.listServers (ServerManager.install
        { sessions := [], tools := [], serverNames := [], config := [],
          disk := [], closed := [] }
        ("sv_aaaaaaaaaaaa") ("A server") ("desc")
        { server_name := none, description := none, command := some ("npx"),
          args := [], env := [], url := none, transport := ("stdio") }
        .connectHangs []).state, listing.server_id ≠ ("sv_aaaaaaaaaaaa")) ∧
    ("sv_aaaaaaaaaaaa") ∈ (ServerManager.install
        { sessions := [], tools := [], serverNames := [], config := [],
          disk := [], closed := [] }
        ("sv_aaaaaaaaaaaa") ("A server") ("desc")
        { server_name := none, description := none, command := some ("npx"),
          args := [], env := [], url := none, transport := ("stdio") }
        .connectHangs []).state.closed :=
  install_handshake_timeout_no_state_mutation
    { sessions := [], tools := [], serverNames := [], config := [],
      disk := [], closed := [] }
    ("sv_aaaaaaaaaaaa") ("A server") ("desc")
    { server_name := none, description := none, command := some ("npx"),
      args := [], env := [], url := none, transport := ("stdio") }
    [] _ rfl rfl rfl rfl rfl

end Toolplex

namespace Toolplex

/-- Claim C4: for a server id with a live connection, when callTool's
watchdog fires the connection is torn down - the session, the cached tool
list and the display name are all removed and the transport is closed -
and only then does the timeout error propagate; the subsequent callTool for
the same id finds no live connection and, because the persisted config is
still there, takes the implicit-install branch (a fresh install attempt).
On any other call failure the connection is likewise torn down before the
error propagates. -/
theorem callTool_watchdog_teardown_then_reinstall
    (st : ServerManagerState) (serverId : String) (timeout : Nat)
    (hsess : st.sessions.contains serverId = true)
    (hcfg : (alGet st.config serverId).isSome = true) :
    (ServerManager.callToolConnected st serverId timeout .hang).2 =
      Except.error (("Tool call timed out after ") ++ toString timeout ++ ("ms")) ∧
    ((ServerManager.callToolConnected st serverId timeout .hang).1).sessions.contains
      serverId = false ∧
    alGet ((ServerManager.callToolConnected st serverId timeout .hang).1).tools
      serverId = none ∧
    alGet ((ServerManager.callToolConnected st serverId timeout .hang).1).serverNames
      serverId = none ∧
    serverId ∈ ((ServerManager.callToolConnected st serverId timeout .hang).1).closed ∧
    ServerManager.callToolPath ((ServerManager.callToolConnected st serverId
      timeout .hang).1) serverId = .lazyInstall ∧
    ∀ msg, ((ServerManager.callToolConnected st serverId timeout
      (.fail msg)).1).sessions.contains serverId = false := by
  have hmem : serverId ∈ st.sessions := by simpa using hsess
  refine ⟨rfl, ?_, ?_, ?_, ?_, ?_, ?_⟩
  · exact contains_filter_ne _ _
  · exact alGet_alErase_self _ _
  · exact alGet_alErase_self _ _
  · simp [ServerManager.callToolConnected, ServerManager.removeServer, hmem]
  · simp [ServerManager.callToolPath, ServerManager.callToolConnected,
      ServerManager.removeServer, hcfg]
  · intro msg
    exact contains_filter_ne _ _

/-- Witness for callTool_watchdog_teardown_then_reinstall: one connected
server with a persisted config entry. -/
theorem callTool_watchdog_teardown_then_reinstall_witness :
    (ServerManager.callToolConnected
        { sessions := [("sv_1")],
          tools := [(("sv_1"), [("t1")])],
          serverNames := [(("sv_1"), ("Server One"))],
          config := [(("sv_1"),
            { server_name := some ("Server One"), description := none,
              command := some ("npx"), args := [], env := [], url := none,
              transport := ("stdio") })],
          disk := [], closed := [] } ("sv_1") 60000 .hang).2 =
      Except.error (("Tool call timed out after ") ++ toString 60000 ++ ("ms")) ∧
    ((ServerManager.callToolConnected
        { sessions := [("sv_1")],
          tools := [(("sv_1"), [("t1")])],
          serverNames := [(("sv_1"), ("Server One"))],
          config := [(("sv_1"),
            { server_name := some ("Server One"), description := none,
              command := some ("npx"), args := [], env := [], url := none,
              transport := ("stdio") })],
          disk := [], closed := [] } ("sv_1") 60000 .hang).1).sessions.contains
      ("sv_1") = false ∧
    alGet ((ServerManager.callToolConnected
        { sessions := [("sv_1")],
          tools := [(("sv_1"), [("t1")])],
          serverNames := [(("sv_1"), ("Server One"))],
          config := [(("sv_1"),
            { server_name := some ("Server One"), description := none,
              command := some ("npx"), args := [], env := [], url := none,
              transport := ("stdio") })],
          disk := [], closed := [] } ("sv_1") 60000 .hang).1).tools ("sv_1") = none ∧
    alGet ((ServerManager.callToolConnected
        { sessions := [("sv_1")],
          tools := [(("sv_1"), [("t1")])],
          serverNames := [(("sv_1"), ("Server One"))],
          config := [(("sv_1"),
            { server_name := some ("Server One"), description := none,
              command := some ("npx"), args := [], env := [], url := none,
              transport := ("stdio") })],
          disk := [], closed := [] } ("sv_1") 60000 .hang).1).serverNames
      ("sv_1") = none ∧
    ("sv_1") ∈ ((ServerManager.callToolConnected
        { sessions := [("sv_1")],
          tools := [(("sv_1"), [("t1")])],
          serverNames := [(("sv_1"), ("Server One"))],
          config := [(("sv_1"),
            { server_name := some ("Server One"), description := none,
              command := some ("npx"), args := [], env := [], url := none,
              transport := ("stdio") })],
          disk := [], closed := [] } ("sv_1") 60000 .hang).1).closed ∧
    ServerManager.callToolPath ((ServerManager.callToolConnected
        { sessions := [("sv_1")],
          tools := [(("sv_1"), [("t1")])],
          serverNames := [(("sv_1"), ("Server One"))],
          config := [(("sv_1"),
            { server_name := some ("Server One"), description := none,
              command := some ("npx"), args := [], env := [], url := none,
              transport := ("stdio") })],
          disk := [], closed := [] } ("sv_1") 60000 .hang).1) ("sv_1") =
      .lazyInstall ∧
    ∀ msg, ((ServerManager.callToolConnected
        { sessions := [("sv_1")],
          tools := [(("sv_1"), [("t1")])],
          serverNames := [(("sv_1"), ("Server One"))],
          config := [(("sv_1"),
            { server_name := some ("Server One"), description := none,
              command := some ("npx"), args := [], env := [], url := none,
              transport := ("stdio") })],
          disk := [], closed := [] } ("sv_1") 60000
        (.fail msg)).1).sessions.contains ("sv_1") = false :=
  callTool_watchdog_teardown_then_reinstall
    { sessions := [("sv_1")],
      tools := [(("sv_1"), [("t1")])],
      serverNames := [(("sv_1"), ("Server One"))],
      config := [(("sv_1"),
        { server_name := some ("Server One"), description := none,
          command := some ("npx"), args := [], env := [], url := none,
          transport := ("stdio") })],
      disk := [], closed := [] } ("sv_1") 60000 rfl rfl

end Toolplex

namespace Toolplex

theorem fanOutLoop_no_rejections (blocked : List String)
    (clients : List (String × RpcOutcome)) (acc : List ServerToolsEntry)
    (h : ∀ c ∈ clients, ∀ msg, c.2 ≠ RpcOutcome.rejected msg) :
    fanOutLoop blocked clients acc = .ok (acc ++ fanOutMergeSpec blocked clients) := by
  induction clients generalizing acc with
  | nil => simp [fanOutLoop, fanOutMergeSpec]
  | cons c rest ih =>
      obtain ⟨runtime, outcome⟩ := c
      have hrest : ∀ c ∈ rest, ∀ msg, c.2 ≠ RpcOutcome.rejected msg :=
        fun c hc => h c (List.mem_cons_of_mem _ hc)
      cases outcome with
      | rejected msg =>
          exact absurd rfl (h _ (List.mem_cons_self _ _) msg)
      | resolved resp =>
          cases resp with
          | errorField msg => simpa [fanOutLoop, fanOutMergeSpec] using ih acc hrest
          | invalid => simpa [fanOutLoop, fanOutMergeSpec] using ih acc hrest
          | ok tools =>
              simp only [fanOutLoop, fanOutMergeSpec]
              rw [ih _ hrest]
              simp

theorem fanOutLoop_first_rejection (blocked : List String)
    (pre post : List (String × RpcOutcome)) (runtime msg : String)
    (acc : List ServerToolsEntry)
    (hpre : ∀ c ∈ pre, ∀ m, c.2 ≠ RpcOutcome.rejected m) :
    fanOutLoop blocked (pre ++ (runtime, RpcOutcome.rejected msg) :: post) acc =
      .error msg := by
  induction pre generalizing acc with
  | nil => simp [fanOutLoop]
  | cons c pre ih =>
      obtain ⟨rt, outcome⟩ := c
      have hrest : ∀ c ∈ pre, ∀ m, c.2 ≠ RpcOutcome.rejected m :=
        fun c hc => hpre c (List.mem_cons_of_mem _ hc)
      cases outcome with
      | rejected m => exact absurd rfl (hpre _ (List.mem_cons_self _ _) m)
      | resolved resp =>
          cases resp with
          | errorField m => simpa [fanOutLoop] using ih acc hrest
          | invalid => simpa [fanOutLoop] using ih acc hrest
          | ok tools => simpa [fanOutLoop] using ih _ hrest

/-- Claim C7's counterexample: one runtime whose list_all_tools request
REJECTS (here with the client's own timeout message) makes the whole fan-out
return an error reply, dropping the healthy second runtime's tools - the
successful runtime's results are NOT merged, contradicting the claim that an
individual failure only skips that runtime's contribution.  The same second
runtime alone merges fine. -/
theorem fanout_rejected_request_fails_whole_operation :
    handleListToolsFanOut []
      [(("node"), RpcOutcome.rejected ("Request timed out: list_all_tools")),
       (("python"), RpcOutcome.resolved (.ok [(("sv_b"), [("toolB")])]))] =
      .error ("Request timed out: list_all_tools") ∧
    handleListToolsFanOut []
      [(("python"), RpcOutcome.resolved (.ok [(("sv_b"), [("toolB")])]))] =
      .ok [{ server_id := ("sv_b"), tools := [("toolB")] }] := by
  exact ⟨rfl, rfl⟩

/-- Claim C7 as amended: the dispatcher queries every registered client in
turn; a runtime whose request RESOLVES with an error payload or with a
response failing schema validation is skipped while the other runtimes'
results are still merged (so when no request rejects, the reply is exactly
the merge of the valid, policy-filtered, non-empty contributions); but a
runtime whose request REJECTS (transport-level failure such as a timeout or
subprocess exit) aborts the whole operation, which returns an error reply. -/
theorem fanout_skips_resolved_failures_merges_rest (blocked : List String)
    (clients : List (String × RpcOutcome)) :
    ((∀ c ∈ clients, ∀ msg, c.2 ≠ RpcOutcome.rejected msg) →
      handleListToolsFanOut blocked clients = .ok (fanOutMergeSpec blocked clients)) ∧
    (∀ pre runtime msg post,
      clients = pre ++ (runtime, RpcOutcome.rejected msg) :: post →
      (∀ c ∈ pre, ∀ m, c.2 ≠ RpcOutcome.rejected m) →
      handleListToolsFanOut blocked clients = .error msg) := by
  constructor
  · intro h
    simpa using fanOutLoop_no_rejections blocked clients [] h
  · intro pre runtime msg post hsplit hpre
    rw [hsplit]
    exact fanOutLoop_first_rejection blocked pre post runtime msg [] hpre

/-- Witness for fanout_skips_resolved_failures_merges_rest: three runtimes -
one resolving with an error payload, one with an invalid response, one with
two servers of which one is blocked by policy and one has an empty tool
list - merge to exactly the one healthy, unblocked, non-empty contribution. -/
theorem fanout_skips_resolved_failures_merges_rest_witness :
    handleListToolsFanOut [("sv_blocked")]
      [(("node"), RpcOutcome.resolved (.errorField ("boom"))),
       (("deno"), RpcOutcome.resolved .invalid),
       (("python"), RpcOutcome.resolved (.ok
         [(("sv_blocked"), [("t0")]), (("sv_ok"), [("t1"), ("t2")]),
          (("sv_empty"), [])]))] =
      .ok (fanOutMergeSpec [("sv_blocked")]
        [(("node"), RpcOutcome.resolved (.errorField ("boom"))),
         (("deno"), RpcOutcome.resolved .invalid),
         (("python"), RpcOutcome.resolved (.ok
           [(("sv_blocked"), [("t0")]), (("sv_ok"), [("t1"), ("t2")]),
            (("sv_empty"), [])]))]) ∧
    fanOutMergeSpec [("sv_blocked")]
        [(("node"), RpcOutcome.resolved (.errorField ("boom"))),
         (("deno"), RpcOutcome.resolved .invalid),
         (("python"), RpcOutcome.resolved (.ok
           [(("sv_blocked"), [("t0")]), (("sv_ok"), [("t1"), ("t2")]),
            (("sv_empty"), [])]))] =
      [{ server_id := ("sv_ok"), tools := [("t1"), ("t2")] }] :=
  ⟨(fanout_skips_resolved_failures_merges_rest [("sv_blocked")]
      [(("node"), RpcOutcome.resolved (.errorField ("boom"))),
       (("deno"), RpcOutcome.resolved .invalid),
       (("python"), RpcOutcome.resolved (.ok
         [(("sv_blocked"), [("t0")]), (("sv_ok"), [("t1"), ("t2")]),
          (("sv_empty"), [])]))]).1
      (by intro c hc msg; fin_cases hc <;> simp), by rfl⟩

/-- Claim C8's counterexample: the bundled-dependencies accessors do NOT
throw before init - on the uninitialized registry, getBundledDependencies
returns the empty object (its own doc comment says "Returns empty object if
not set", and the repository's unit tests exercise it right after reset with
no init), and getBundledDependencyPath returns undefined; both are silent
defaults, contradicting the claim that every listed accessor throws. -/
theorem registry_bundled_accessor_returns_default_before_init :
    Registry.getBundledDependencies RegistryState.uninitialized =
      BundledDependencies.empty ∧
    Registry.getBundledDependencyPath RegistryState.uninitialized
      DependencyName.node = none :=
  ⟨rfl, rfl⟩

/-- Claim C8 as amended: every Registry singleton accessor EXCEPT the
bundled-dependencies accessors (getClientContext, getToolplexApiService,
getServerManagerClients, getTelemetryLogger, getPromptsCache,
getToolDefinitionsCache, getServersCache, getPolicyEnforcer) throws its
slot-specific descriptive error when called before init and after reset;
the bundled-dependencies accessors instead return the empty object /
undefined silently. -/
theorem registry_accessors_fail_fast_except_bundled (r : RegistryState) :
    Registry.getClientContext RegistryState.uninitialized =
      .error ("ClientContext not initialized in Registry") ∧
    Registry.getToolplexApiService RegistryState.uninitialized =
      .error ("ToolplexApiService not initialized in Registry") ∧
    Registry.getServerManagerClients RegistryState.uninitialized =
      .error ("ServerManagerClients not initialized in Registry") ∧
    Registry.getTelemetryLogger RegistryState.uninitialized =
      .error ("TelemetryLogger not initialized in Registry") ∧
    Registry.getPromptsCache RegistryState.uninitialized =
      .error ("PromptsCache not initialized in Registry") ∧
    Registry.getToolDefinitionsCache RegistryState.uninitialized =
      .error ("ToolDefinitionsCache not initialized in Registry") ∧
    Registry.getServersCache RegistryState.uninitialized =
      .error ("ServersCache not initialized in Registry") ∧
    Registry.getPolicyEnforcer RegistryState.uninitialized =
      .error ("PolicyEnforcer not initialized in Registry") ∧
    Registry.getClientContext (Registry.reset r) =
      .error ("ClientContext not initialized in Registry") ∧
    Registry.getToolplexApiService (Registry.reset r) =
      .error ("ToolplexApiService not initialized in Registry") ∧
    Registry.getServerManagerClients (Registry.reset r) =
      .error ("ServerManagerClients not initialized in Registry") ∧
    Registry.getTelemetryLogger (Registry.reset r) =
      .error ("TelemetryLogger not initialized in Registry") ∧
    Registry.getPromptsCache (Registry.reset r) =
      .error ("PromptsCache not initialized in Registry") ∧
    Registry.getToolDefinitionsCache (Registry.reset r) =
      .error ("ToolDefinitionsCache not initialized in Registry") ∧
    Registry.getServersCache (Registry.reset r) =
      .error ("ServersCache not initialized in Registry") ∧
    Registry.getPolicyEnforcer (Registry.reset r) =
      .error ("PolicyEnforcer not initialized in Registry") ∧
    Registry.getBundledDependencies (Registry.reset r) =
      BundledDependencies.empty ∧
    Registry.getBundledDependencyPath (Registry.reset r) DependencyName.npx = none :=
  ⟨rfl, rfl, rfl, rfl, rfl, rfl, rfl, rfl, rfl, rfl, rfl, rfl, rfl, rfl,
   rfl, rfl, rfl, rfl⟩

end Toolplex

namespace Toolplex

/- Supporting development for the Part 1 model: under the id-uniqueness the
spec demands ("monotonic or time-based, must be unique while pending"), the
pending-request machinery does settle every request exactly once, always
correlated to its own id, and removes each table entry at most once.  This
isolates the Date.now() collision as the precise failure mode behind the
counterexample trace above. -/

theorem mapGet_mapDelete_self (m : List (Nat × Nat)) (t : Nat) :
    mapGet (mapDelete m t) t = none := by
  induction m with
  | nil => rfl
  | cons q m ih =>
      rcases q with ⟨a, b⟩
      by_cases ha : a = t <;> simp [mapDelete, mapGet, ha, ih]

theorem mapGet_mapDelete_ne (m : List (Nat × Nat)) (u v : Nat) (h : v ≠ u) :
    mapGet (mapDelete m u) v = mapGet m v := by
  induction m with
  | nil => rfl
  | cons q m ih =>
      rcases q with ⟨a, b⟩
      by_cases ha : a = u
      · subst ha
        simp [mapDelete, mapGet, Ne.symm h, ih]
      · by_cases hav : a = v <;> simp [mapDelete, mapGet, ha, hav, ih, h]

theorem mapGet_mapSet_self (m : List (Nat × Nat)) (t k : Nat) :
    mapGet (mapSet m t k) t = some k := by
  simp [mapSet, mapGet]

theorem mapGet_mapSet_ne (m : List (Nat × Nat)) (t k v : Nat) (h : v ≠ t) :
    mapGet (mapSet m t k) v = mapGet m v := by
  have ht : ¬ t = v := fun hc => h hc.symm
  simp [mapSet, mapGet, ht, mapGet_mapDelete_ne m t v h]

end Toolplex

namespace Toolplex

theorem clientStep_send_alive (s : ClientState) (j u : Nat) (ha : s.alive = true) :
    clientStep s (.send j u) = { s with handlers := mapSet s.handlers u j } := by
  simp [clientStep, ha]

theorem clientStep_send_dead (s : ClientState) (j u : Nat) (ha : s.alive = false) :
    clientStep s (.send j u) =
      { s with settles := s.settles ++ [⟨j, u, .rejectedNotStarted⟩] } := by
  simp [clientStep, ha]

theorem clientStep_response_some (s : ClientState) (u : Nat) (isErr : Bool) (j : Nat)
    (hm : mapGet s.handlers u = some j) :
    clientStep s (.response u isErr) =
      { s with
          handlers := mapDelete s.handlers u,
          settles := s.settles ++ [⟨j, u, if isErr then .rejectedError else .resolved⟩],
          removals := s.removals ++ [u] } := by
  simp [clientStep, hm]

theorem clientStep_response_none (s : ClientState) (u : Nat) (isErr : Bool)
    (hm : mapGet s.handlers u = none) :
    clientStep s (.response u isErr) = s := by
  simp [clientStep, hm]

theorem clientStep_timeout_some (s : ClientState) (j u : Nat)
    (hm : (mapGet s.handlers u).isSome = true) :
    clientStep s (.timeoutFire j u) =
      { s with
          handlers := mapDelete s.handlers u,
          settles := s.settles ++ [⟨j, u, .rejectedTimeout⟩],
          removals := s.removals ++ [u] } := by
  simp [clientStep, hm]

theorem clientStep_timeout_none (s : ClientState) (j u : Nat)
    (hm : (mapGet s.handlers u).isSome = false) :
    clientStep s (.timeoutFire j u) = s := by
  simp [clientStep, hm]

theorem clientStep_procExit_alive (s : ClientState) (ha : s.alive = true) :
    clientStep s .procExit =
      { s with
          handlers := [],
          alive := false,
          settles := s.settles ++ s.handlers.map (fun p => ⟨p.2, p.1, .rejectedExit⟩),
          removals := s.removals ++ s.handlers.map (fun p => p.1) } := by
  simp [clientStep, ha]

theorem clientStep_procExit_dead (s : ClientState) (ha : s.alive = false) :
    clientStep s .procExit = s := by
  simp [clientStep, ha]

theorem mapGet_eq_none_iff (m : List (Nat × Nat)) (t : Nat) :
    mapGet m t = none ↔ ∀ p ∈ m, p.1 ≠ t := by
  induction m with
  | nil => simp [mapGet]
  | cons q m ih =>
      rcases q with ⟨a, b⟩
      by_cases ha : a = t <;> simp [mapGet, ha, ih]

theorem mem_of_mapGet_eq_some (m : List (Nat × Nat)) (t k : Nat)
    (h : mapGet m t = some k) : (t, k) ∈ m := by
  induction m with
  | nil => simp [mapGet] at h
  | cons q m ih =>
      rcases q with ⟨a, b⟩
      by_cases ha : a = t
      · subst ha
        simp [mapGet] at h
        simp [h]
      · simp only [mapGet, ha, if_false] at h
        exact List.mem_cons_of_mem _ (ih h)

theorem mapGet_of_mem_nodup (m : List (Nat × Nat)) (p : Nat × Nat)
    (hnd : (m.map Prod.fst).Nodup) (hp : p ∈ m) : mapGet m p.1 = some p.2 := by
  induction m with
  | nil => cases hp
  | cons q m ih =>
      have hnd1 : (q.1 :: m.map Prod.fst).Nodup := by
        simpa only [List.map_cons] using hnd
      have hnd2 := List.nodup_cons.mp hnd1
      rcases List.mem_cons.mp hp with rfl | hp2
      · simp [mapGet]
      · rcases q with ⟨a, b⟩
        have ha : ¬ a = p.1 := by
          intro hc
          have hmem : p.1 ∈ m.map Prod.fst := List.mem_map_of_mem Prod.fst hp2
          rw [← hc] at hmem
          exact hnd2.1 hmem
        simp only [mapGet, ha, if_false]
        exact ih hnd2.2 hp2

theorem mapDelete_sublist (m : List (Nat × Nat)) (t : Nat) :
    List.Sublist (mapDelete m t) m := by
  induction m with
  | nil => simp [mapDelete]
  | cons q m ih =>
      rcases q with ⟨a, b⟩
      by_cases ha : a = t
      · simp only [mapDelete, ha, if_true]
        exact ih.cons _
      · simp only [mapDelete, ha, if_false]
        exact ih.cons₂ _

theorem mem_mapDelete_key_ne (m : List (Nat × Nat)) (t : Nat) (p : Nat × Nat)
    (hp : p ∈ mapDelete m t) : p.1 ≠ t := by
  induction m with
  | nil => simp [mapDelete] at hp
  | cons q m ih =>
      rcases q with ⟨a, b⟩
      by_cases ha : a = t
      · simp only [mapDelete, ha, if_true] at hp
        exact ih hp
      · simp only [mapDelete, ha, if_false] at hp
        rcases List.mem_cons.mp hp with rfl | hp2
        · simpa using ha
        · exact ih hp2

theorem keys_mapDelete_ne (m : List (Nat × Nat)) (t : Nat) :
    ∀ x ∈ (mapDelete m t).map Prod.fst, x ≠ t := by
  intro x hx
  obtain ⟨p, hp, rfl⟩ := List.mem_map.mp hx
  exact mem_mapDelete_key_ne m t p hp

theorem mapDelete_keys_nodup (m : List (Nat × Nat)) (t : Nat)
    (h : (m.map Prod.fst).Nodup) : ((mapDelete m t).map Prod.fst).Nodup :=
  h.sublist ((mapDelete_sublist m t).map Prod.fst)

theorem mapSet_keys_nodup (m : List (Nat × Nat)) (t k : Nat)
    (h : (m.map Prod.fst).Nodup) : ((mapSet m t k).map Prod.fst).Nodup := by
  simp only [mapSet, List.map_cons]
  exact List.nodup_cons.mpr
    ⟨fun hm => keys_mapDelete_ne m t t hm rfl, mapDelete_keys_nodup m t h⟩

theorem length_le_one_of_nodup_all_eq {α : Type} (l : List α) (t : α)
    (hnd : l.Nodup) (hall : ∀ x ∈ l, x = t) : l.length ≤ 1 := by
  match l with
  | [] => simp
  | [x] => simp
  | x :: y :: rest =>
      exfalso
      have hx := hall x (List.mem_cons_self x _)
      have hy := hall y (List.mem_cons_of_mem x (List.mem_cons_self y _))
      rw [List.nodup_cons] at hnd
      exact hnd.1 (by rw [hx, hy]; exact List.mem_cons_self _ _)

theorem length_filter_map_eq {α β : Type} (f : α → β) (q : β → Bool) (xs : List α) :
    ((xs.map f).filter q).length = (xs.filter (fun x => q (f x))).length := by
  induction xs with
  | nil => rfl
  | cons x xs ih => by_cases hq : q (f x) <;> simp [hq, ih]

end Toolplex

namespace Toolplex

theorem tableNodup_step (s : ClientState) (e : ClientEvent)
    (h : TableNodup s) : TableNodup (clientStep s e) := by
  unfold TableNodup at h ⊢
  cases e with
  | send j u =>
      cases ha : s.alive
      · rw [clientStep_send_dead s j u ha]
        exact h
      · rw [clientStep_send_alive s j u ha]
        exact mapSet_keys_nodup s.handlers u j h
  | response u isErr =>
      cases hm : mapGet s.handlers u with
      | none => rw [clientStep_response_none s u isErr hm]; exact h
      | some j =>
          rw [clientStep_response_some s u isErr j hm]
          exact mapDelete_keys_nodup s.handlers u h
  | timeoutFire j u =>
      cases hm : (mapGet s.handlers u).isSome
      · rw [clientStep_timeout_none s j u hm]; exact h
      · rw [clientStep_timeout_some s j u hm]
        exact mapDelete_keys_nodup s.handlers u h
  | procExit =>
      cases ha : s.alive
      · rw [clientStep_procExit_dead s ha]; exact h
      · rw [clientStep_procExit_alive s ha]
        simp

theorem settleCount_step_mono (s : ClientState) (e : ClientEvent) (k : Nat) :
    settleCount k s ≤ settleCount k (clientStep s e) := by
  cases e with
  | send j u =>
      cases ha : s.alive
      · rw [clientStep_send_dead s j u ha]
        simp [settleCount, List.filter_append]
      · rw [clientStep_send_alive s j u ha]
        exact le_rfl
  | response u isErr =>
      cases hm : mapGet s.handlers u with
      | none => rw [clientStep_response_none s u isErr hm]
      | some j =>
          rw [clientStep_response_some s u isErr j hm]
          simp [settleCount, List.filter_append]
  | timeoutFire j u =>
      cases hm : (mapGet s.handlers u).isSome
      · rw [clientStep_timeout_none s j u hm]
      · rw [clientStep_timeout_some s j u hm]
        simp [settleCount, List.filter_append]
  | procExit =>
      cases ha : s.alive
      · rw [clientStep_procExit_dead s ha]
      · rw [clientStep_procExit_alive s ha]
        simp [settleCount, List.filter_append]

theorem handlers_value_filter_one (m : List (Nat × Nat)) (k t : Nat)
    (hnd : (m.map Prod.fst).Nodup)
    (hown : ∀ u, mapGet m u = some k → u = t)
    (hget : mapGet m t = some k) :
    (m.filter (fun p => p.2 == k)).length = 1 := by
  have hall : ∀ p ∈ m.filter (fun p => p.2 == k), p = (t, k) := by
    intro p hp
    obtain ⟨hpm, hpk⟩ := List.mem_filter.mp hp
    have hk : p.2 = k := by simpa using hpk
    have hsome := mapGet_of_mem_nodup m p hnd hpm
    rw [hk] at hsome
    have ht := hown p.1 hsome
    rcases p with ⟨p1, p2⟩
    simp only at hk ht
    rw [hk, ht]
  have hnodup : (m.filter (fun p => p.2 == k)).Nodup :=
    (List.Nodup.of_map Prod.fst hnd).filter _
  have hle := length_le_one_of_nodup_all_eq _ (t, k) hnodup hall
  have hmem : (t, k) ∈ m.filter (fun p => p.2 == k) :=
    List.mem_filter.mpr ⟨mem_of_mapGet_eq_some m t k hget, by simp⟩
  have hpos : 0 < (m.filter (fun p => p.2 == k)).length :=
    List.length_pos.mpr (List.ne_nil_of_mem hmem)
  omega

theorem handlers_value_filter_zero (m : List (Nat × Nat)) (k t : Nat)
    (hnd : (m.map Prod.fst).Nodup)
    (hown : ∀ u, mapGet m u = some k → u = t)
    (hget : mapGet m t = none) :
    (m.filter (fun p => p.2 == k)).length = 0 := by
  simp only [List.length_eq_zero]
  rw [List.filter_eq_nil_iff]
  intro p hp
  simp only [beq_iff_eq]
  intro hk
  have hsome := mapGet_of_mem_nodup m p hnd hp
  rw [hk] at hsome
  have ht := hown p.1 hsome
  rw [ht] at hsome
  rw [hget] at hsome
  cases hsome

theorem keys_filter_eq_one (l : List Nat) (x : Nat) (hnd : l.Nodup) (hx : x ∈ l) :
    (l.filter (fun y => y == x)).length = 1 := by
  have hall : ∀ y ∈ l.filter (fun y => y == x), y = x := by
    intro y hy
    simpa using (List.mem_filter.mp hy).2
  have hle := length_le_one_of_nodup_all_eq _ x (hnd.filter _) hall
  have hmem : x ∈ l.filter (fun y => y == x) :=
    List.mem_filter.mpr ⟨hx, by simp⟩
  have hpos : 0 < (l.filter (fun y => y == x)).length :=
    List.length_pos.mpr (List.ne_nil_of_mem hmem)
  omega

theorem keys_filter_eq_zero (l : List Nat) (x : Nat) (hx : x ∉ l) :
    (l.filter (fun y => y == x)).length = 0 := by
  simp only [List.length_eq_zero]
  rw [List.filter_eq_nil_iff]
  intro y hy
  simp only [beq_iff_eq]
  intro hc
  exact hx (hc ▸ hy)

end Toolplex

namespace Toolplex

theorem reqPre_step (k t : Nat) (s : ClientState) (e : ClientEvent)
    (hav : EventAvoids k t e) (hnd : TableNodup s) (h : ReqPre k t s) :
    ReqPre k t (clientStep s e) := by
  obtain ⟨hget, hown, hset, hrem⟩ := h
  cases e with
  | send j u =>
      obtain ⟨hjk, hut⟩ := hav
      cases ha : s.alive
      · rw [clientStep_send_dead s j u ha]
        refine ⟨hget, hown, ?_, hrem⟩
        intro e he
        rcases List.mem_append.mp he with hold | hnew
        · exact hset e hold
        · rcases List.mem_singleton.mp hnew with rfl
          simpa using hjk
      · rw [clientStep_send_alive s j u ha]
        refine ⟨?_, ?_, hset, hrem⟩
        · rw [show ({ s with handlers := mapSet s.handlers u j } :
              ClientState).handlers = mapSet s.handlers u j from rfl]
          rw [mapGet_mapSet_ne s.handlers u j t (fun hc => hut hc.symm)]
          exact hget
        · intro w
          rw [show ({ s with handlers := mapSet s.handlers u j } :
              ClientState).handlers = mapSet s.handlers u j from rfl]
          by_cases hw : w = u
          · subst hw
            rw [mapGet_mapSet_self]
            intro hc
            exact hjk (Option.some.inj hc)
          · rw [mapGet_mapSet_ne s.handlers u j w hw]
            exact hown w
  | response u isErr =>
      cases hm : mapGet s.handlers u with
      | none =>
          rw [clientStep_response_none s u isErr hm]
          exact ⟨hget, hown, hset, hrem⟩
      | some j =>
          have hut : u ≠ t := by
            intro hc
            rw [hc, hget] at hm
            cases hm
          have hjk : j ≠ k := by
            intro hc
            rw [hc] at hm
            exact hown u hm
          rw [clientStep_response_some s u isErr j hm]
          refine ⟨?_, ?_, ?_, ?_⟩
          · rw [show ({ s with
                handlers := mapDelete s.handlers u,
                settles := s.settles ++ [⟨j, u, if isErr then .rejectedError else .resolved⟩],
                removals := s.removals ++ [u] } : ClientState).handlers =
                mapDelete s.handlers u from rfl]
            rw [mapGet_mapDelete_ne s.handlers u t (fun hc => hut hc.symm)]
            exact hget
          · intro w
            by_cases hw : w = u
            · subst hw
              rw [show ({ s with
                  handlers := mapDelete s.handlers w,
                  settles := s.settles ++ [⟨j, w, if isErr then .rejectedError else .resolved⟩],
                  removals := s.removals ++ [w] } : ClientState).handlers =
                  mapDelete s.handlers w from rfl]
              rw [mapGet_mapDelete_self]
              intro hc
              cases hc
            · rw [show ({ s with
                  handlers := mapDelete s.handlers u,
                  settles := s.settles ++ [⟨j, u, if isErr then .rejectedError else .resolved⟩],
                  removals := s.removals ++ [u] } : ClientState).handlers =
                  mapDelete s.handlers u from rfl]
              rw [mapGet_mapDelete_ne s.handlers u w hw]
              exact hown w
          · intro e he
            rcases List.mem_append.mp he with hold | hnew
            · exact hset e hold
            · rcases List.mem_singleton.mp hnew with rfl
              simpa using hjk
          · simp only [removalCount, List.filter_append, List.length_append] at hrem ⊢
            have : ([u].filter (fun x => x == t)).length = 0 := by
              simp [hut]
            omega
  | timeoutFire j u =>
      obtain ⟨hjk, hut⟩ := hav
      cases hm : (mapGet s.handlers u).isSome
      · rw [clientStep_timeout_none s j u hm]
        exact ⟨hget, hown, hset, hrem⟩
      · rw [clientStep_timeout_some s j u hm]
        refine ⟨?_, ?_, ?_, ?_⟩
        · rw [show ({ s with
              handlers := mapDelete s.handlers u,
              settles := s.settles ++ [⟨j, u, .rejectedTimeout⟩],
              removals := s.removals ++ [u] } : ClientState).handlers =
              mapDelete s.handlers u from rfl]
          rw [mapGet_mapDelete_ne s.handlers u t (fun hc => hut hc.symm)]
          exact hget
        · intro w
          by_cases hw : w = u
          · subst hw
            rw [show ({ s with
                handlers := mapDelete s.handlers w,
                settles := s.settles ++ [⟨j, w, .rejectedTimeout⟩],
                removals := s.removals ++ [w] } : ClientState).handlers =
                mapDelete s.handlers w from rfl]
            rw [mapGet_mapDelete_self]
            intro hc
            cases hc
          · rw [show ({ s with
                handlers := mapDelete s.handlers u,
                settles := s.settles ++ [⟨j, u, .rejectedTimeout⟩],
                removals := s.removals ++ [u] } : ClientState).handlers =
                mapDelete s.handlers u from rfl]
            rw [mapGet_mapDelete_ne s.handlers u w hw]
            exact hown w
        · intro e he
          rcases List.mem_append.mp he with hold | hnew
          · exact hset e hold
          · rcases List.mem_singleton.mp hnew with rfl
            simpa using hjk
        · simp only [removalCount, List.filter_append, List.length_append] at hrem ⊢
          have : ([u].filter (fun x => x == t)).length = 0 := by
            simp [hut]
          omega
  | procExit =>
      cases ha : s.alive
      · rw [clientStep_procExit_dead s ha]
        exact ⟨hget, hown, hset, hrem⟩
      · rw [clientStep_procExit_alive s ha]
        have hnokey : t ∉ s.handlers.map Prod.fst := by
          intro hk
          obtain ⟨p, hp, hpt⟩ := List.mem_map.mp hk
          have := mapGet_of_mem_nodup s.handlers p hnd hp
          rw [hpt, hget] at this
          cases this
        refine ⟨rfl, ?_, ?_, ?_⟩
        · intro w hw
          simp [mapGet] at hw
        · intro e he
          rcases List.mem_append.mp he with hold | hnew
          · exact hset e hold
          · obtain ⟨p, hp, rfl⟩ := List.mem_map.mp hnew
            intro hc
            have hc2 : p.2 = k := hc
            have hsome := mapGet_of_mem_nodup s.handlers p hnd hp
            rw [hc2] at hsome
            exact hown p.1 hsome
        · have hmapfst : s.handlers.map (fun p => p.1) = s.handlers.map Prod.fst := rfl
          simp only [removalCount, List.filter_append, List.length_append, hmapfst] at hrem ⊢
          have hz := keys_filter_eq_zero (s.handlers.map Prod.fst) t hnokey
          omega

end Toolplex

namespace Toolplex

theorem reqPre_send (k t : Nat) (s : ClientState)
    (h : ReqPre k t s) : ReqMid k t (clientStep s (.send k t)) := by
  obtain ⟨hget, hown, hset, hrem⟩ := h
  have hset0 : (s.settles.filter (fun e => e.req == k)).length = 0 := by
    rw [List.length_eq_zero, List.filter_eq_nil_iff]
    intro e he
    simpa using hset e he
  cases ha : s.alive
  · rw [clientStep_send_dead s k t ha]
    refine ⟨?_, ?_, Or.inr ⟨?_, ?_, ?_⟩⟩
    · intro u hu
      exact absurd hu (hown u)
    · intro e he
      rcases List.mem_append.mp he with hold | hnew
      · intro hk
        exact absurd hk (hset e hold)
      · rcases List.mem_singleton.mp hnew with rfl
        intro _
        rfl
    · exact hget
    · show ((s.settles ++ [(⟨k, t, .rejectedNotStarted⟩ : Settle)]).filter
        (fun e => e.req == k)).length = 1
      simp [List.filter_append, hset0]
    · show (s.removals.filter (fun x => x == t)).length ≤ 1
      have h0 : (s.removals.filter (fun x => x == t)).length = 0 := hrem
      omega
  · rw [clientStep_send_alive s k t ha]
    refine ⟨?_, ?_, Or.inl ⟨?_, ?_, ?_⟩⟩
    · intro u hu
      by_cases hw : u = t
      · exact hw
      · rw [show ({ s with handlers := mapSet s.handlers t k } :
            ClientState).handlers = mapSet s.handlers t k from rfl] at hu
        rw [mapGet_mapSet_ne s.handlers t k u hw] at hu
        exact absurd hu (hown u)
    · intro e he hk
      exact absurd hk (hset e he)
    · exact mapGet_mapSet_self s.handlers t k
    · exact hset0
    · exact hrem

theorem reqMid_timeout (k t : Nat) (s : ClientState)
    (h : ReqMid k t s) : ReqDone k t (clientStep s (.timeoutFire k t)) := by
  obtain ⟨hown, hcorr, hphase⟩ := h
  rcases hphase with ⟨hg, hc0, hr0⟩ | ⟨hg, hc1, hr1⟩
  · -- still pending: the timer removes the entry and rejects
    have hm : (mapGet s.handlers t).isSome = true := by rw [hg]; rfl
    rw [clientStep_timeout_some s k t hm]
    refine ⟨?_, ?_, ?_, ?_, ?_⟩
    · intro u hu
      by_cases hw : u = t
      · exact hw
      · rw [show ({ s with
            handlers := mapDelete s.handlers t,
            settles := s.settles ++ [⟨k, t, .rejectedTimeout⟩],
            removals := s.removals ++ [t] } : ClientState).handlers =
            mapDelete s.handlers t from rfl] at hu
        rw [mapGet_mapDelete_ne s.handlers t u hw] at hu
        exact absurd hu (fun hc => hw (hown u hc))
    · intro e he
      rcases List.mem_append.mp he with hold | hnew
      · exact hcorr e hold
      · rcases List.mem_singleton.mp hnew with rfl
        intro _
        rfl
    · exact mapGet_mapDelete_self s.handlers t
    · show ((s.settles ++ [(⟨k, t, .rejectedTimeout⟩ : Settle)]).filter
        (fun e => e.req == k)).length = 1
      have h0 : (s.settles.filter (fun e => e.req == k)).length = 0 := hc0
      simp [List.filter_append, h0]
    · show ((s.removals ++ [t]).filter (fun x => x == t)).length ≤ 1
      have h0 : (s.removals.filter (fun x => x == t)).length = 0 := hr0
      simp [List.filter_append, h0]
  · -- already settled and removed: the timer's has(id) check fails, no-op
    have hm : (mapGet s.handlers t).isSome = false := by rw [hg]; rfl
    rw [clientStep_timeout_none s k t hm]
    exact ⟨hown, hcorr, hg, hc1, hr1⟩

end Toolplex

namespace Toolplex

theorem reqPhase_transport (k t : Nat) (s s1 : ClientState)
    (hg : mapGet s1.handlers t = mapGet s.handlers t)
    (hc : settleCount k s1 = settleCount k s)
    (hr : removalCount t s1 = removalCount t s)
    (hphase :
      (mapGet s.handlers t = some k ∧ settleCount k s = 0 ∧ removalCount t s = 0) ∨
      (mapGet s.handlers t = none ∧ settleCount k s = 1 ∧ removalCount t s ≤ 1)) :
    (mapGet s1.handlers t = some k ∧ settleCount k s1 = 0 ∧ removalCount t s1 = 0) ∨
    (mapGet s1.handlers t = none ∧ settleCount k s1 = 1 ∧ removalCount t s1 ≤ 1) := by
  rcases hphase with ⟨h1, h2, h3⟩ | ⟨h1, h2, h3⟩
  · exact Or.inl ⟨hg.trans h1, hc.trans h2, hr.trans h3⟩
  · refine Or.inr ⟨hg.trans h1, hc.trans h2, ?_⟩
    omega

theorem settleCount_append_ne (k : Nat) (l : List Settle) (x : Settle)
    (hx : x.req ≠ k) :
    ((l ++ [x]).filter (fun e => e.req == k)).length =
      (l.filter (fun e => e.req == k)).length := by
  have hb : (x.req == k) = false := by simpa using hx
  simp [List.filter_append, hb]

theorem removals_append_ne (t u : Nat) (l : List Nat) (hu : u ≠ t) :
    ((l ++ [u]).filter (fun x => x == t)).length =
      (l.filter (fun x => x == t)).length := by
  have hb : (u == t) = false := by simpa using hu
  simp [List.filter_append, hb]

theorem reqMid_step (k t : Nat) (s : ClientState) (e : ClientEvent)
    (hav : EventAvoids k t e) (hnd : TableNodup s) (h : ReqMid k t s) :
    ReqMid k t (clientStep s e) := by
  obtain ⟨hown, hcorr, hphase⟩ := h
  cases e with
  | send j u =>
      obtain ⟨hjk, hut⟩ := hav
      cases ha : s.alive
      · rw [clientStep_send_dead s j u ha]
        refine ⟨hown, ?_, ?_⟩
        · intro x hx
          rcases List.mem_append.mp hx with hold | hnew
          · exact hcorr x hold
          · rcases List.mem_singleton.mp hnew with rfl
            intro hk
            exact absurd hk hjk
        · exact reqPhase_transport k t s _
            rfl (settleCount_append_ne k s.settles _ hjk) rfl hphase
      · rw [clientStep_send_alive s j u ha]
        refine ⟨?_, hcorr, ?_⟩
        · intro w hw
          by_cases hwu : w = u
          · subst hwu
            rw [show ({ s with handlers := mapSet s.handlers w j } :
                ClientState).handlers = mapSet s.handlers w j from rfl] at hw
            rw [mapGet_mapSet_self] at hw
            exact absurd (Option.some.inj hw) hjk
          · rw [show ({ s with handlers := mapSet s.handlers u j } :
                ClientState).handlers = mapSet s.handlers u j from rfl] at hw
            rw [mapGet_mapSet_ne s.handlers u j w hwu] at hw
            exact hown w hw
        · exact reqPhase_transport k t s _
            (mapGet_mapSet_ne s.handlers u j t (fun hc => hut hc.symm))
            rfl rfl hphase
  | response u isErr =>
      cases hm : mapGet s.handlers u with
      | none =>
          rw [clientStep_response_none s u isErr hm]
          exact ⟨hown, hcorr, hphase⟩
      | some j =>
          by_cases hu : u = t
          · -- the response for OUR request: it must still be pending
            subst hu
            rcases hphase with ⟨hg, hc0, hr0⟩ | ⟨hg, hc1, hr1⟩
            · have hjk : j = k := by
                have h2 := hg
                rw [hm] at h2
                exact Option.some.inj h2
              subst j
              rw [clientStep_response_some s u isErr k hm]
              refine ⟨?_, ?_, Or.inr ⟨?_, ?_, ?_⟩⟩
              · intro w hw
                by_cases hwu : w = u
                · exact hwu
                · rw [show ({ s with
                      handlers := mapDelete s.handlers u,
                      settles := s.settles ++
                        [⟨k, u, if isErr then .rejectedError else .resolved⟩],
                      removals := s.removals ++ [u] } : ClientState).handlers =
                      mapDelete s.handlers u from rfl] at hw
                  rw [mapGet_mapDelete_ne s.handlers u w hwu] at hw
                  exact hown w hw
              · intro x hx
                rcases List.mem_append.mp hx with hold | hnew
                · exact hcorr x hold
                · rcases List.mem_singleton.mp hnew with rfl
                  intro _
                  rfl
              · exact mapGet_mapDelete_self s.handlers u
              · show ((s.settles ++
                    [(⟨k, u, if isErr then .rejectedError else .resolved⟩ : Settle)]).filter
                    (fun e => e.req == k)).length = 1
                have h0 : (s.settles.filter (fun e => e.req == k)).length = 0 := hc0
                simp [List.filter_append, h0]
              · show ((s.removals ++ [u]).filter (fun x => x == u)).length ≤ 1
                have h0 : (s.removals.filter (fun x => x == u)).length = 0 := hr0
                simp [List.filter_append, h0]
            · -- entry gone: response dropped
              rw [hg] at hm
              cases hm
          · -- a response for a DIFFERENT id: its owner is not request k
            have hjk : j ≠ k := by
              intro hc
              rw [hc] at hm
              exact hu (hown u hm)
            rw [clientStep_response_some s u isErr j hm]
            refine ⟨?_, ?_, ?_⟩
            · intro w hw
              by_cases hwu : w = u
              · subst hwu
                rw [show ({ s with
                    handlers := mapDelete s.handlers w,
                    settles := s.settles ++
                      [⟨j, w, if isErr then .rejectedError else .resolved⟩],
                    removals := s.removals ++ [w] } : ClientState).handlers =
                    mapDelete s.handlers w from rfl] at hw
                rw [mapGet_mapDelete_self] at hw
                cases hw
              · rw [show ({ s with
                    handlers := mapDelete s.handlers u,
                    settles := s.settles ++
                      [⟨j, u, if isErr then .rejectedError else .resolved⟩],
                    removals := s.removals ++ [u] } : ClientState).handlers =
                    mapDelete s.handlers u from rfl] at hw
                rw [mapGet_mapDelete_ne s.handlers u w hwu] at hw
                exact hown w hw
            · intro x hx
              rcases List.mem_append.mp hx with hold | hnew
              · exact hcorr x hold
              · rcases List.mem_singleton.mp hnew with rfl
                intro hk
                exact absurd hk hjk
            · exact reqPhase_transport k t s _
                (mapGet_mapDelete_ne s.handlers u t (fun hc => hu hc.symm))
                (settleCount_append_ne k s.settles _ hjk)
                (removals_append_ne t u s.removals hu) hphase
  | timeoutFire j u =>
      obtain ⟨hjk, hut⟩ := hav
      cases hm : (mapGet s.handlers u).isSome
      · rw [clientStep_timeout_none s j u hm]
        exact ⟨hown, hcorr, hphase⟩
      · rw [clientStep_timeout_some s j u hm]
        refine ⟨?_, ?_, ?_⟩
        · intro w hw
          by_cases hwu : w = u
          · subst hwu
            rw [show ({ s with
                handlers := mapDelete s.handlers w,
                settles := s.settles ++ [⟨j, w, .rejectedTimeout⟩],
                removals := s.removals ++ [w] } : ClientState).handlers =
                mapDelete s.handlers w from rfl] at hw
            rw [mapGet_mapDelete_self] at hw
            cases hw
          · rw [show ({ s with
                handlers := mapDelete s.handlers u,
                settles := s.settles ++ [⟨j, u, .rejectedTimeout⟩],
                removals := s.removals ++ [u] } : ClientState).handlers =
                mapDelete s.handlers u from rfl] at hw
            rw [mapGet_mapDelete_ne s.handlers u w hwu] at hw
            exact hown w hw
        · intro x hx
          rcases List.mem_append.mp hx with hold | hnew
          · exact hcorr x hold
          · rcases List.mem_singleton.mp hnew with rfl
            intro hk
            exact absurd hk hjk
        · exact reqPhase_transport k t s _
            (mapGet_mapDelete_ne s.handlers u t (fun hc => hut hc.symm))
            (settleCount_append_ne k s.settles _ hjk)
            (removals_append_ne t u s.removals hut) hphase
  | procExit =>
      cases ha : s.alive
      · rw [clientStep_procExit_dead s ha]
        exact ⟨hown, hcorr, hphase⟩
      · rw [clientStep_procExit_alive s ha]
        have hmapfst : s.handlers.map (fun p => p.1) = s.handlers.map Prod.fst := rfl
        refine ⟨?_, ?_, ?_⟩
        · intro w hw
          simp [mapGet] at hw
        · intro x hx
          rcases List.mem_append.mp hx with hold | hnew
          · exact hcorr x hold
          · obtain ⟨p, hp, rfl⟩ := List.mem_map.mp hnew
            intro hk
            have hk2 : p.2 = k := hk
            have hsome := mapGet_of_mem_nodup s.handlers p hnd hp
            rw [hk2] at hsome
            exact hown p.1 hsome
        · rcases hphase with ⟨hg, hc0, hr0⟩ | ⟨hg, hc1, hr1⟩
          · refine Or.inr ⟨rfl, ?_, ?_⟩
            · show ((s.settles ++
                  s.handlers.map (fun p => (⟨p.2, p.1, .rejectedExit⟩ : Settle))).filter
                  (fun e => e.req == k)).length = 1
              rw [List.filter_append, List.length_append]
              have h0 : (s.settles.filter (fun e => e.req == k)).length = 0 := hc0
              have h1 : ((s.handlers.map
                  (fun p => (⟨p.2, p.1, .rejectedExit⟩ : Settle))).filter
                  (fun e => e.req == k)).length = 1 := by
                rw [length_filter_map_eq]
                exact handlers_value_filter_one s.handlers k t hnd hown hg
              omega
            · show ((s.removals ++ s.handlers.map (fun p => p.1)).filter
                  (fun x => x == t)).length ≤ 1
              rw [List.filter_append, List.length_append, hmapfst]
              have h0 : (s.removals.filter (fun x => x == t)).length = 0 := hr0
              have hmem : t ∈ s.handlers.map Prod.fst :=
                List.mem_map_of_mem Prod.fst (mem_of_mapGet_eq_some s.handlers t k hg)
              have h1 := keys_filter_eq_one (s.handlers.map Prod.fst) t hnd hmem
              omega
          · refine Or.inr ⟨rfl, ?_, ?_⟩
            · show ((s.settles ++
                  s.handlers.map (fun p => (⟨p.2, p.1, .rejectedExit⟩ : Settle))).filter
                  (fun e => e.req == k)).length = 1
              rw [List.filter_append, List.length_append]
              have h1 : (s.settles.filter (fun e => e.req == k)).length = 1 := hc1
              have h0 : ((s.handlers.map
                  (fun p => (⟨p.2, p.1, .rejectedExit⟩ : Settle))).filter
                  (fun e => e.req == k)).length = 0 := by
                rw [length_filter_map_eq]
                exact handlers_value_filter_zero s.handlers k t hnd hown hg
              omega
            · show ((s.removals ++ s.handlers.map (fun p => p.1)).filter
                  (fun x => x == t)).length ≤ 1
              rw [List.filter_append, List.length_append, hmapfst]
              have h1 : (s.removals.filter (fun x => x == t)).length ≤ 1 := hr1
              have hnokey : t ∉ s.handlers.map Prod.fst := by
                intro hk
                obtain ⟨p, hp, hpt⟩ := List.mem_map.mp hk
                have hsome := mapGet_of_mem_nodup s.handlers p hnd hp
                rw [hpt, hg] at hsome
                cases hsome
              have h0 := keys_filter_eq_zero (s.handlers.map Prod.fst) t hnokey
              omega

end Toolplex

namespace Toolplex

theorem reqDone_step (k t : Nat) (s : ClientState) (e : ClientEvent)
    (hav : EventAvoids k t e) (hnd : TableNodup s) (h : ReqDone k t s) :
    ReqDone k t (clientStep s e) := by
  obtain ⟨hown, hcorr, hg, hc1, hr1⟩ := h
  have hmid := reqMid_step k t s e hav hnd ⟨hown, hcorr, Or.inr ⟨hg, hc1, hr1⟩⟩
  obtain ⟨hown2, hcorr2, hphase2⟩ := hmid
  have hmono := settleCount_step_mono s e k
  rcases hphase2 with ⟨hg2, hc2, hr2⟩ | ⟨hg2, hc2, hr2⟩
  · rw [hc1, hc2] at hmono
    exact absurd hmono (by omega)
  · exact ⟨hown2, hcorr2, hg2, hc2, hr2⟩

theorem avoids_foldl (k t : Nat) (P : ClientState → Prop)
    (hstep : ∀ s e, EventAvoids k t e → TableNodup s → P s → P (clientStep s e))
    (evs : List ClientEvent) (s : ClientState)
    (hall : ∀ e ∈ evs, EventAvoids k t e) (hnd : TableNodup s) (h : P s) :
    TableNodup (evs.foldl clientStep s) ∧ P (evs.foldl clientStep s) := by
  induction evs generalizing s with
  | nil => exact ⟨hnd, h⟩
  | cons e evs ih =>
      simp only [List.foldl_cons]
      exact ih (clientStep s e)
        (fun x hx => hall x (List.mem_cons_of_mem _ hx))
        (tableNodup_step s e hnd)
        (hstep s e (hall e (List.mem_cons_self _ _)) hnd h)

/-- Supporting theorem for the diagnosis of claim C1: when the wire id of
request k (sent with the id t it drew from Date.now()) is not shared with
any other send or timer event of the trace - which is exactly what the
spec's "request ids must be unique while pending" provides - the request's
promise is settled exactly once by the time its own 60 s timer has fired,
every settlement of the request is correlated to its own id t, and the
pending-table entry for id t is removed at most once, no matter which
responses, other requests, other timers, or a child-process exit occur
around it.  Together with the counterexample trace this isolates the
Date.now() id collision as the one way the exactly-once contract breaks. -/
theorem sendRequest_unique_ids_settle_exactly_once
    (A B C : List ClientEvent) (k t : Nat)
    (hA : ∀ e ∈ A, EventAvoids k t e)
    (hB : ∀ e ∈ B, EventAvoids k t e)
    (hC : ∀ e ∈ C, EventAvoids k t e) :
    settleCount k (clientRun
      (A ++ ClientEvent.send k t :: (B ++ ClientEvent.timeoutFire k t :: C))) = 1 ∧
    removalCount t (clientRun
      (A ++ ClientEvent.send k t :: (B ++ ClientEvent.timeoutFire k t :: C))) ≤ 1 ∧
    ∀ e ∈ (clientRun
      (A ++ ClientEvent.send k t :: (B ++ ClientEvent.timeoutFire k t :: C))).settles,
      e.req = k → e.id = t := by
  have hnd0 : TableNodup ClientState.initial := by
    simp [TableNodup, ClientState.initial]
  have hpre0 : ReqPre k t ClientState.initial := by
    refine ⟨rfl, ?_, ?_, rfl⟩
    · intro u hu
      simp [mapGet, ClientState.initial] at hu
    · intro e he
      simp [ClientState.initial] at he
  unfold clientRun
  rw [List.foldl_append, List.foldl_cons, List.foldl_append, List.foldl_cons]
  obtain ⟨hndA, hpreA⟩ := avoids_foldl k t (ReqPre k t) (reqPre_step k t)
    A ClientState.initial hA hnd0 hpre0
  set sA := A.foldl clientStep ClientState.initial with hsA
  have hmid1 : ReqMid k t (clientStep sA (.send k t)) := reqPre_send k t sA hpreA
  have hnd1 : TableNodup (clientStep sA (.send k t)) :=
    tableNodup_step sA (.send k t) hndA
  obtain ⟨hndB, hmidB⟩ := avoids_foldl k t (ReqMid k t) (reqMid_step k t)
    B (clientStep sA (.send k t)) hB hnd1 hmid1
  set sB := B.foldl clientStep (clientStep sA (.send k t)) with hsB
  have hdone : ReqDone k t (clientStep sB (.timeoutFire k t)) :=
    reqMid_timeout k t sB hmidB
  have hnd2 : TableNodup (clientStep sB (.timeoutFire k t)) :=
    tableNodup_step sB (.timeoutFire k t) hndB
  obtain ⟨hndC, hfin⟩ := avoids_foldl k t (ReqDone k t) (reqDone_step k t)
    C (clientStep sB (.timeoutFire k t)) hC hnd2 hdone
  obtain ⟨hown, hcorr, hg, hc, hr⟩ := hfin
  exact ⟨hc, hr, hcorr⟩

end Toolplex
